import Mathlib

/-!
Verification of the point-cloud construction and RANSAC plane-fitting core of the
MyWay MiDaS obstacle-detection repository.

Two C++ implementations are embedded:
  * `findPlanesRansac`      (app/src/main/cpp/ransac.cpp)
  * `detect_walls_ransac`   (android/app/src/main/cpp/ransac.cpp)

Modelling conventions:
  * IEEE single-precision floats are modelled as exact rationals (`ℚ`); rounding
    and overflow are idealised away.  Tolerance thresholds keep their literal
    values (`FLT_EPSILON = 2 ^ (-23 : ℤ)` in the app guard).
  * The random source (`std::mt19937` seeded from `std::random_device`, reduced
    by `std::uniform_int_distribution<size_t>(0, n-1)`) is abstracted as a
    stream `s : ℕ → ℕ` of successive draws; the k-th draw used by the algorithm
    is `s k % n`, which is always in `[0, n)`.  The distribution algorithm of
    `uniform_int_distribution` is implementation-defined, so only the structure
    of the sampling is modelled, not its probability law.
  * A candidate plane is carried by its UNNORMALISED cross-product coefficients
    `(a, b, c)` and the matching offset `d = -(a·x1 + b·y1 + c·z1)`.  The C++
    code divides this whole 4-tuple by `L = sqrt (a² + b² + c²)`; since `L` is
    irrational the embedding keeps the scaled representative and expresses the
    normalised quantities as `a / L` etc. inside theorem statements over `ℝ`.
    The inlier test `|â·x + b̂·y + ĉ·z + d̂| < t` on normalised coefficients is
    encoded rationally as `0 < t ∧ (a·x + b·y + c·z + d)² < t² · (a² + b² + c²)`,
    which is proved equivalent over `ℝ` in the theorem for claim C8.
  * `size_t` casts of `int` follow C++ modular semantics (`castSizeT`).
  * The caller-supplied output buffer of `detect_walls_ransac` is a `List`
    passed in and returned; the C++ `while` retry loops of its sampler are
    given explicit fuel, with `none` denoting non-termination of a retry loop.
  * Reads outside the supplied depth buffer return `0` (an invalid sample).
-/

/-- Three-dimensional point, mirroring `struct Point3D { float x, y, z; }`. -/
structure Point3D where
  x : ℚ
  y : ℚ
  z : ℚ
deriving DecidableEq

/-- Plane `a·x + b·y + c·z + d = 0`, mirroring `struct Plane { float a, b, c, d; }`.
In this embedding the coefficients are the unnormalised cross-product values;
the C++ value is this tuple divided by `sqrt (a² + b² + c²)`. -/
structure Plane where
  a : ℚ
  b : ℚ
  c : ℚ
  d : ℚ
deriving DecidableEq

/-- Result record of the app implementation,
mirroring `struct PlaneResult { float A, B, C, D; int numInliers; }`. -/
structure PlaneResult where
  A : ℚ
  B : ℚ
  C : ℚ
  D : ℚ
  numInliers : ℤ
deriving DecidableEq

/-- Result record of the android implementation, mirroring
`typedef struct { float a, b, c, d; int32_t inlier_count; } RansacPlaneResult`. -/
structure RansacPlaneResult where
  a : ℚ
  b : ℚ
  c : ℚ
  d : ℚ
  inlier_count : ℤ
deriving DecidableEq

/-- C++ semantics of `static_cast<size_t>(m)` for an `int` value `m`
(64-bit `size_t`): reduction modulo `2^64`, negative values wrapping around. -/
def castSizeT (m : ℤ) : ℕ := (m % (2 : ℤ) ^ 64).toNat

/-- Processing of one grid cell by the cloud builder of `findPlanesRansac`
(app, ransac.cpp lines 118-140): skip if `inverseDepth < 1e-5`; compute
`z = 1 / inverseDepth`; skip if `z > 1000`; otherwise back-project with
`x = (u - cx) * z / fx`, `y = (v - cy) * z / fy` (no sign flip on `y`). -/
def appCellPoint (fx fy cx cy : ℚ) (u v : ℕ) (invD : ℚ) : Option Point3D :=
  if invD < 1 / 100000 then none
  else
    let z := 1 / invD
    if 1000 < z then none
    else some ⟨((u : ℚ) - cx) * z / fx, ((v : ℚ) - cy) * z / fy, z⟩

/-- Processing of one grid cell by the cloud builder of `detect_walls_ransac`
(android, ransac.cpp lines 44-71): keep only if `inv_d > 0.01`; compute
`Z = 1 / inv_d`, `X = (u - cx) * Z / fx`, `Y = (v - cy) * Z / fy`, then flip
the sign of `Y` (`Y = -Y`). -/
def androidCellPoint (fx fy cx cy : ℚ) (u v : ℕ) (invD : ℚ) : Option Point3D :=
  if 1 / 100 < invD then
    let Z := 1 / invD
    let X := ((u : ℚ) - cx) * Z / fx
    let Y := ((v : ℚ) - cy) * Z / fy
    some ⟨X, -Y, Z⟩
  else none

/-- Point-cloud builder of `findPlanesRansac`: row-major double loop
`for v in [0, height) for u in [0, width)` over `depthMap[v * width + u]`. -/
def buildCloudApp (depthMap : List ℚ) (width height : ℤ) (fx fy cx cy : ℚ) :
    List Point3D :=
  (List.range height.toNat).flatMap fun v =>
    (List.range width.toNat).filterMap fun u =>
      appCellPoint fx fy cx cy u v (depthMap.getD (v * width.toNat + u) 0)

/-- Point-cloud builder of `detect_walls_ransac`: same row-major traversal with
the android cell rule. -/
def buildCloudAndroid (depthMap : List ℚ) (width height : ℤ) (fx fy cx cy : ℚ) :
    List Point3D :=
  (List.range height.toNat).flatMap fun v =>
    (List.range width.toNat).filterMap fun u =>
      androidCellPoint fx fy cx cy u v (depthMap.getD (v * width.toNat + u) 0)

/-- Value `a·x + b·y + c·z + d` of the (unnormalised) plane form at a point. -/
def planeEval (pl : Plane) (p : Point3D) : ℚ :=
  pl.a * p.x + pl.b * p.y + pl.c * p.z + pl.d

/-- Squared magnitude of the plane's normal vector `(a, b, c)`. -/
def normSq (pl : Plane) : ℚ := pl.a ^ 2 + pl.b ^ 2 + pl.c ^ 2

/-- Candidate plane from three points in `calculatePlane` (app, ransac.cpp
lines 33-64): edge vectors from `p1`, cross product `(a, b, c)`, and rejection
when the normal length `sqrt (a² + b² + c²)` is at most
`FLT_EPSILON * 100 = 100 * 2 ^ (-23 : ℤ)` (the collinear case, returning NaN in
C++, here `none`).  The squared guard `10000 / 2^46 < a² + b² + c²` is the
exact equivalent of `length > 100 * FLT_EPSILON`.  The offset is kept
unnormalised: `d = -(a·x1 + b·y1 + c·z1)`, the C++ `D` times the length. -/
def calculatePlane (p1 p2 p3 : Point3D) : Option Plane :=
  let a := (p2.y - p1.y) * (p3.z - p1.z) - (p2.z - p1.z) * (p3.y - p1.y)
  let b := (p2.z - p1.z) * (p3.x - p1.x) - (p2.x - p1.x) * (p3.z - p1.z)
  let c := (p2.x - p1.x) * (p3.y - p1.y) - (p2.y - p1.y) * (p3.x - p1.x)
  if 10000 / 2 ^ 46 < a ^ 2 + b ^ 2 + c ^ 2 then
    some ⟨a, b, c, -(a * p1.x + b * p1.y + c * p1.z)⟩
  else none

/-- Candidate plane from three points in `detect_walls_ransac` (android,
ransac.cpp lines 105-130): same cross product, but the degeneracy guard is
`magnitude < 1e-6` (skip), i.e. keep iff `1e-12 ≤ a² + b² + c²`. -/
def androidCandidate (p1 p2 p3 : Point3D) : Option Plane :=
  let a := (p2.y - p1.y) * (p3.z - p1.z) - (p2.z - p1.z) * (p3.y - p1.y)
  let b := (p2.z - p1.z) * (p3.x - p1.x) - (p2.x - p1.x) * (p3.z - p1.z)
  let c := (p2.x - p1.x) * (p3.y - p1.y) - (p2.y - p1.y) * (p3.x - p1.x)
  if a ^ 2 + b ^ 2 + c ^ 2 < 1 / 1000000000000 then none
  else some ⟨a, b, c, -(a * p1.x + b * p1.y + c * p1.z)⟩

/-- Inlier test of both scoring loops: the C++ code tests
`|â·x + b̂·y + ĉ·z + d̂| < t` with the normalised tuple `(â, b̂, ĉ, d̂) =
(a, b, c, d) / sqrt (a² + b² + c²)`; on the unnormalised representative this is
equivalent (for a non-degenerate normal) to
`0 < t ∧ (a·x + b·y + c·z + d)² < t² · (a² + b² + c²)`, which is decidable over
`ℚ`.  The equivalence over `ℝ` is proved in the theorem for claim C8. -/
def isInlier (t : ℚ) (pl : Plane) (p : Point3D) : Bool :=
  decide (0 < t ∧ planeEval pl p ^ 2 < t ^ 2 * normSq pl)

/-- Scoring loop shared by both implementations: scan the whole cloud and
count the points passing the inlier test. -/
def countInliers (t : ℚ) (pl : Plane) (cloud : List Point3D) : ℕ :=
  cloud.countP (isInlier t pl)

/-- Mutable state of the RANSAC loop: next unread position of the random
stream, best inlier count so far (initially `-1`), best plane so far. -/
structure RState where
  pos : ℕ
  bestCount : ℤ
  bestPlane : Plane
deriving DecidableEq

/-- Initial loop state: `maxInliersFound = -1`, `bestPlane = {0, 0, 0, 0}`. -/
def initState : RState := ⟨0, -1, ⟨0, 0, 0, 0⟩⟩

/-- One iteration of the `findPlanesRansac` loop (app, ransac.cpp lines
158-195): draw three indices; if any two coincide, `continue` (the iteration
is consumed, nothing is resampled); otherwise build the candidate plane with
`calculatePlane`, skip on degeneracy, count inliers over the whole cloud, and
replace the best model iff the new count strictly exceeds the old one. -/
def appIter (t : ℚ) (cloud : List Point3D) (s : ℕ → ℕ) (st : RState) : RState :=
  let n := cloud.length
  let idx1 := s st.pos % n
  let idx2 := s (st.pos + 1) % n
  let idx3 := s (st.pos + 2) % n
  let skip : RState := ⟨st.pos + 3, st.bestCount, st.bestPlane⟩
  if idx1 = idx2 ∨ idx1 = idx3 ∨ idx2 = idx3 then skip
  else
    match calculatePlane (cloud.getD idx1 ⟨0, 0, 0⟩) (cloud.getD idx2 ⟨0, 0, 0⟩)
        (cloud.getD idx3 ⟨0, 0, 0⟩) with
    | none => skip
    | some pl =>
        let c : ℤ := countInliers t pl cloud
        if st.bestCount < c then ⟨st.pos + 3, c, pl⟩ else skip

/-- The `for (iter = 0; iter < maxIterations; ++iter)` loop of
`findPlanesRansac`, by recursion on the remaining iteration count. -/
def appLoop (t : ℚ) (cloud : List Point3D) (s : ℕ → ℕ) : ℕ → RState → RState
  | 0, st => st
  | m + 1, st => appLoop t cloud s m (appIter t cloud s st)

/-- Embedding of `findPlanesRansac` (app, ransac.cpp lines 84-226): build the
cloud; return `[]` if `size < (size_t) minInliers || size < 3`; run the loop;
emit the single best plane iff `maxInliersFound >= minInliers`.  This models
the computation after the entry `pointCloud.reserve(width * height / 4)` call;
the throwing entry path of that reserve is modelled by
`findPlanesRansacCall` / `reserveThrows` below. -/
def findPlanesRansac (depthMap : List ℚ) (width height : ℤ)
    (fx fy cx cy distanceThreshold : ℚ) (minInliers maxIterations : ℤ)
    (s : ℕ → ℕ) : List PlaneResult :=
  let cloud := buildCloudApp depthMap width height fx fy cx cy
  if cloud.length < castSizeT minInliers ∨ cloud.length < 3 then []
  else
    let st := appLoop distanceThreshold cloud s maxIterations.toNat initState
    if minInliers ≤ st.bestCount then
      [⟨st.bestPlane.a, st.bestPlane.b, st.bestPlane.c, st.bestPlane.d,
        st.bestCount⟩]
    else []

/-- Retry loop of the android sampler (`idx = distrib(gen); while (bad idx)
idx = distrib(gen);`): repeatedly draw `s pos % n` until the predicate fails,
with explicit fuel; `none` models a retry loop that never terminates. -/
def drawUntil (s : ℕ → ℕ) (n : ℕ) (bad : ℕ → Bool) : ℕ → ℕ → Option (ℕ × ℕ)
  | 0, _ => none
  | fuel + 1, pos =>
      let v := s pos % n
      if bad v then drawUntil s n bad fuel (pos + 1) else some (v, pos + 1)

/-- Index sampling of one `detect_walls_ransac` iteration (android, ransac.cpp
lines 92-99): `idx1` is drawn once; `idx2` is redrawn while equal to `idx1`;
`idx3` is redrawn while equal to `idx1` or `idx2`.  Returns the triple and the
next unread stream position. -/
def androidSample (s : ℕ → ℕ) (n fuel pos : ℕ) : Option (ℕ × ℕ × ℕ × ℕ) :=
  let idx1 := s pos % n
  match drawUntil s n (fun j => j == idx1) fuel (pos + 1) with
  | none => none
  | some (idx2, pos2) =>
      match drawUntil s n (fun j => j == idx1 || j == idx2) fuel pos2 with
      | none => none
      | some (idx3, pos3) => some (idx1, idx2, idx3, pos3)

/-- One iteration of the `detect_walls_ransac` loop (android, ransac.cpp lines
92-154): sample a distinct triple (resampling on collisions), build the
candidate, skip on degeneracy, count inliers, and replace the best model iff
the new count strictly exceeds the old one. -/
def androidIter (t : ℚ) (cloud : List Point3D) (s : ℕ → ℕ) (fuel : ℕ)
    (st : RState) : Option RState :=
  match androidSample s cloud.length fuel st.pos with
  | none => none
  | some (i1, i2, i3, pos3) =>
      let skip : RState := ⟨pos3, st.bestCount, st.bestPlane⟩
      match androidCandidate (cloud.getD i1 ⟨0, 0, 0⟩) (cloud.getD i2 ⟨0, 0, 0⟩)
          (cloud.getD i3 ⟨0, 0, 0⟩) with
      | none => some skip
      | some pl =>
          let c : ℤ := countInliers t pl cloud
          if st.bestCount < c then some ⟨pos3, c, pl⟩ else some skip

/-- Iteration loop of `detect_walls_ransac`, propagating retry-loop
non-termination. -/
def androidLoop (t : ℚ) (cloud : List Point3D) (s : ℕ → ℕ) (fuel : ℕ) :
    ℕ → RState → Option RState
  | 0, st => some st
  | m + 1, st =>
      match androidIter t cloud s fuel st with
      | none => none
      | some st' => androidLoop t cloud s fuel m st'

/-- Embedding of `detect_walls_ransac` (android, ransac.cpp lines 25-183):
build the cloud; return `0` (buffer untouched) if
`size < 3 || size < (size_t) min_inliers`; run the loop; if
`best_inlier_count >= min_inliers && max_planes >= 1`, write the single best
plane into slot 0 of the caller's buffer and return `1`, else return `0` with
the buffer untouched.  The returned pair is (return value, buffer state).
This models the computation after the entry
`point_cloud.reserve(width * height / 4)` call; the throwing entry path of
that reserve is modelled by `detect_walls_ransacCall` / `reserveThrows`
below. -/
def detect_walls_ransac (depthMap : List ℚ) (width height : ℤ)
    (fx fy cx cy distance_threshold : ℚ) (min_inliers max_iterations : ℤ)
    (buf : List RansacPlaneResult) (max_planes : ℤ) (s : ℕ → ℕ) (fuel : ℕ) :
    Option (ℤ × List RansacPlaneResult) :=
  let cloud := buildCloudAndroid depthMap width height fx fy cx cy
  if cloud.length < 3 ∨ cloud.length < castSizeT min_inliers then some (0, buf)
  else
    match androidLoop distance_threshold cloud s fuel max_iterations.toNat
        initState with
    | none => none
    | some st =>
        if min_inliers ≤ st.bestCount ∧ 1 ≤ max_planes then
          some (1, buf.set 0 ⟨st.bestPlane.a, st.bestPlane.b, st.bestPlane.c,
            st.bestPlane.d, st.bestCount⟩)
        else some (0, buf)

/-- Entry behaviour of `pointCloud.reserve(width * height / 4)` (app line 96,
android line 42), executed before any loop: `width * height / 4` is `int`
arithmetic with C++ truncating division, and the implicit `int → size_t`
conversion of a NEGATIVE quotient yields a value near `2^64` that exceeds
`std::vector::max_size()`, making `reserve` throw `std::length_error` before
any processing.  A non-negative quotient (at most `(2^31 - 1) / 4` for in-range
`int` inputs) is far below `max_size()` and `reserve` is benign.  So the call
dies iff the quotient is negative, i.e. iff `width * height ≤ -4`.  Products
outside `int` range involve signed-overflow UB and are outside the model. -/
def reserveThrows (width height : ℤ) : Prop :=
  Int.tdiv (width * height) 4 < 0

instance (width height : ℤ) : Decidable (reserveThrows width height) :=
  inferInstanceAs (Decidable (_ < _))

/-- Full-call model of `findPlanesRansac`, including the entry
`pointCloud.reserve(width * height / 4)`: `none` models the
`std::length_error` throw of `reserve` (see `reserveThrows`); otherwise the
call proceeds as `findPlanesRansac`, which models everything after the
reserve. -/
def findPlanesRansacCall (depthMap : List ℚ) (width height : ℤ)
    (fx fy cx cy distanceThreshold : ℚ) (minInliers maxIterations : ℤ)
    (s : ℕ → ℕ) : Option (List PlaneResult) :=
  if reserveThrows width height then none
  else some (findPlanesRansac depthMap width height fx fy cx cy
    distanceThreshold minInliers maxIterations s)

/-- Full-call model of `detect_walls_ransac`, including the entry
`point_cloud.reserve(width * height / 4)`: `none` models the
`std::length_error` throw of `reserve`; otherwise the call proceeds as
`detect_walls_ransac`, which models everything after the reserve. -/
def detect_walls_ransacCall (depthMap : List ℚ) (width height : ℤ)
    (fx fy cx cy distance_threshold : ℚ) (min_inliers max_iterations : ℤ)
    (buf : List RansacPlaneResult) (max_planes : ℤ) (s : ℕ → ℕ) (fuel : ℕ) :
    Option (ℤ × List RansacPlaneResult) :=
  if reserveThrows width height then none
  else detect_walls_ransac depthMap width height fx fy cx cy distance_threshold
    min_inliers max_iterations buf max_planes s fuel

/-- Cell filter described by the specification (section 4.1): keep a cell iff
its inverse depth strictly exceeds the validity epsilon AND the depth
`Z = 1 / inverseDepth` does not exceed the sanity ceiling. -/
def specKeep (eps ceiling invD : ℚ) : Prop :=
  eps < invD ∧ 1 / invD ≤ ceiling

instance (eps ceiling invD : ℚ) : Decidable (specKeep eps ceiling invD) :=
  inferInstanceAs (Decidable (_ ∧ _))

/-- Cloud described by the specification for the app builder: row-major order,
one point per kept cell, with the app's back-projection (no Y flip), epsilon
`1e-5` and ceiling `1000`. -/
def specCloudApp (depthMap : List ℚ) (width height : ℤ) (fx fy cx cy : ℚ) :
    List Point3D :=
  (List.range height.toNat).flatMap fun v =>
    (List.range width.toNat).filterMap fun u =>
      let invD := depthMap.getD (v * width.toNat + u) 0
      if specKeep (1 / 100000) 1000 invD then
        some ⟨((u : ℚ) - cx) * (1 / invD) / fx, ((v : ℚ) - cy) * (1 / invD) / fy,
          1 / invD⟩
      else none

/-- Cloud described by the specification for the android builder: row-major
order, one point per kept cell, android back-projection (Y flipped), epsilon
`0.01` and ceiling `1000`. -/
def specCloudAndroid (depthMap : List ℚ) (width height : ℤ) (fx fy cx cy : ℚ) :
    List Point3D :=
  (List.range height.toNat).flatMap fun v =>
    (List.range width.toNat).filterMap fun u =>
      let invD := depthMap.getD (v * width.toNat + u) 0
      if specKeep (1 / 100) 1000 invD then
        some ⟨((u : ℚ) - cx) * (1 / invD) / fx,
          -(((v : ℚ) - cy) * (1 / invD) / fy), 1 / invD⟩
      else none

/-- Best-model update rule applied to a list of scored candidates (count,
plane): replace iff the new count strictly exceeds the current best. -/
def bestFold (b : ℤ × Plane) : List (ℕ × Plane) → ℤ × Plane
  | [] => b
  | c :: l => bestFold (if b.1 < (c.1 : ℤ) then ((c.1 : ℤ), c.2) else b) l

/-- Scored candidates evaluated by the app loop, in iteration order, starting
at stream position `pos` with `m` iterations left.  Collisions and degenerate
triples contribute nothing. -/
def appCands (t : ℚ) (cloud : List Point3D) (s : ℕ → ℕ) : ℕ → ℕ → List (ℕ × Plane)
  | 0, _ => []
  | m + 1, pos =>
      let n := cloud.length
      let idx1 := s pos % n
      let idx2 := s (pos + 1) % n
      let idx3 := s (pos + 2) % n
      if idx1 = idx2 ∨ idx1 = idx3 ∨ idx2 = idx3 then appCands t cloud s m (pos + 3)
      else
        match calculatePlane (cloud.getD idx1 ⟨0, 0, 0⟩) (cloud.getD idx2 ⟨0, 0, 0⟩)
            (cloud.getD idx3 ⟨0, 0, 0⟩) with
        | none => appCands t cloud s m (pos + 3)
        | some pl => (countInliers t pl cloud, pl) :: appCands t cloud s m (pos + 3)

/-- Scored candidates evaluated by the android loop together with the final
stream position, or `none` if some retry loop exhausts its fuel. -/
def androidCands (t : ℚ) (cloud : List Point3D) (s : ℕ → ℕ) (fuel : ℕ) :
    ℕ → ℕ → Option (List (ℕ × Plane) × ℕ)
  | 0, pos => some ([], pos)
  | m + 1, pos =>
      match androidSample s cloud.length fuel pos with
      | none => none
      | some (i1, i2, i3, pos3) =>
          match androidCandidate (cloud.getD i1 ⟨0, 0, 0⟩) (cloud.getD i2 ⟨0, 0, 0⟩)
              (cloud.getD i3 ⟨0, 0, 0⟩) with
          | none => androidCands t cloud s fuel m pos3
          | some pl =>
              (androidCands t cloud s fuel m pos3).map fun lq =>
                ((countInliers t pl cloud, pl) :: lq.1, lq.2)

/-! ## Helper lemmas -/

/-- A `flatMap` whose body is always empty produces the empty list. -/
lemma flatMap_empty (l : List ℕ) : (l.flatMap fun _ => ([] : List Point3D)) = [] := by
  induction l with
  | nil => rfl
  | cons a tl ih => simp [List.flatMap_cons, ih]

/-- The app cell rule agrees with the specification filter (epsilon `1e-5`,
ceiling `1000`): the only boundary case, `invD = 1e-5` exactly, is skipped by
the code through the ceiling check (`Z = 100000 > 1000`) and by the
specification through the epsilon check, so the two keep-sets coincide. -/
lemma appCell_spec (fx fy cx cy : ℚ) (u v : ℕ) (invD : ℚ) :
    appCellPoint fx fy cx cy u v invD =
      (if specKeep (1 / 100000) 1000 invD then
        some ⟨((u : ℚ) - cx) * (1 / invD) / fx, ((v : ℚ) - cy) * (1 / invD) / fy,
          1 / invD⟩
      else none) := by
  by_cases hk : specKeep (1 / 100000) 1000 invD
  · have h1 : ¬ invD < 1 / 100000 := not_lt.2 (le_of_lt hk.1)
    have h2 : ¬ (1000 : ℚ) < 1 / invD := not_lt.2 hk.2
    simp only [appCellPoint]
    rw [if_neg h1, if_neg h2, if_pos hk]
  · have hcode : invD < 1 / 100000 ∨ (1000 : ℚ) < 1 / invD := by
      by_contra hc
      push_neg at hc
      apply hk
      refine ⟨?_, hc.2⟩
      have hpos : (0 : ℚ) < invD := lt_of_lt_of_le (by norm_num) hc.1
      have h1000 : (1 : ℚ) ≤ 1000 * invD := by
        have := (div_le_iff₀ hpos).mp hc.2
        linarith
      nlinarith
    simp only [appCellPoint]
    rw [if_neg hk]
    rcases hcode with hcase | hcase
    · rw [if_pos hcase]
    · by_cases h1 : invD < 1 / 100000
      · rw [if_pos h1]
      · rw [if_neg h1, if_pos hcase]

/-- The android cell rule agrees with the specification filter (epsilon `0.01`,
ceiling `1000`): any kept cell has `Z = 1 / invD < 100`, so the android code's
missing ceiling check is immaterial for any ceiling of at least `100`. -/
lemma androidCell_spec (fx fy cx cy : ℚ) (u v : ℕ) (invD : ℚ) :
    androidCellPoint fx fy cx cy u v invD =
      (if specKeep (1 / 100) 1000 invD then
        some ⟨((u : ℚ) - cx) * (1 / invD) / fx,
          -(((v : ℚ) - cy) * (1 / invD) / fy), 1 / invD⟩
      else none) := by
  by_cases hin : (1 : ℚ) / 100 < invD
  · have hpos : (0 : ℚ) < invD := lt_trans (by norm_num) hin
    have hceil : (1 : ℚ) / invD ≤ 1000 := by
      rw [div_le_iff₀ hpos]
      nlinarith
    simp only [androidCellPoint]
    rw [if_pos hin, if_pos ⟨hin, hceil⟩]
  · have hk : ¬ specKeep (1 / 100) 1000 invD := fun h => hin h.1
    simp only [androidCellPoint]
    rw [if_neg hin, if_neg hk]

/-! ## Claim C5 -/

/-- Claim C5: in both Point-Cloud Builders, a grid cell is skipped exactly when
its inverse depth is at most the validity epsilon or the depth
`Z = 1 / inverseDepth` exceeds the sanity ceiling; every other cell contributes
exactly one point, in row-major order.  Stated as equality between each code
builder and the specification-described cloud (epsilon `1e-5` for the app
builder, `0.01` for the android builder, ceiling `1000`). -/
theorem C5_cell_filter (depthMap : List ℚ) (width height : ℤ) (fx fy cx cy : ℚ) :
    buildCloudApp depthMap width height fx fy cx cy =
      specCloudApp depthMap width height fx fy cx cy ∧
    buildCloudAndroid depthMap width height fx fy cx cy =
      specCloudAndroid depthMap width height fx fy cx cy := by
  constructor
  · simp only [buildCloudApp, specCloudApp, appCell_spec]
  · simp only [buildCloudAndroid, specCloudAndroid, androidCell_spec]

/-! ## Claim C1 -/

/-- Claim C1 (counterexample): the claim asserts that BOTH builders store
`Y = -((v - cy) * Z / fy)`.  For the 1×1 grid with inverse depth 1, intrinsics
`fx = fy = 1`, `cx = 0`, `cy = -1`, the app builder (`findPlanesRansac`)
produces the point `(0, 1, 1)`: its stored Y is `+((v - cy) * Z / fy) = 1`,
not the claimed flipped value `-1`. -/
theorem C1_counterexample :
    buildCloudApp [1] 1 1 1 1 0 (-1) = [⟨0, 1, 1⟩] ∧
    ((1 : ℚ) ≠ -((((0 : ℕ) : ℚ) - (-1)) * (1 / 1) / 1)) := by
  constructor
  · norm_num [buildCloudApp, appCellPoint, List.flatMap,
      List.filterMap_cons, List.filterMap_nil,
      show List.range 1 = [0] from rfl, show Int.toNat 1 = 1 from rfl]
  · norm_num

/-- Claim C1 (amended): for every cell passing the validity filter, with
`Z = 1 / inverseDepth`, both builders store `X = (u - cx) * Z / fx` and
`Z`; the android builder (`detect_walls_ransac`) stores the flipped
`Y = -((v - cy) * Z / fy)`, while the app builder (`findPlanesRansac`) stores
the unflipped `Y = (v - cy) * Z / fy`. -/
theorem C1_backprojection (fx fy cx cy : ℚ) (u v : ℕ) (invD : ℚ) (p : Point3D) :
    (appCellPoint fx fy cx cy u v invD = some p →
      p = ⟨((u : ℚ) - cx) * (1 / invD) / fx, ((v : ℚ) - cy) * (1 / invD) / fy,
        1 / invD⟩) ∧
    (androidCellPoint fx fy cx cy u v invD = some p →
      p = ⟨((u : ℚ) - cx) * (1 / invD) / fx,
        -(((v : ℚ) - cy) * (1 / invD) / fy), 1 / invD⟩) := by
  constructor
  · intro h
    simp only [appCellPoint] at h
    split_ifs at h
    exact (Option.some.inj h).symm
  · intro h
    simp only [androidCellPoint] at h
    split_ifs at h
    exact (Option.some.inj h).symm

/-- Claim C1 (witness): the amended theorem applied to the concrete cell
`u = v = 0`, `invD = 1`, `fx = fy = 1`, `cx = 0`, `cy = -1`, on which the two
builders produce `(0, 1, 1)` (app, no flip) and `(0, -1, 1)` (android, flip). -/
theorem C1_backprojection_witness :
    ((⟨0, 1, 1⟩ : Point3D) =
      ⟨(((0 : ℕ) : ℚ) - 0) * (1 / 1) / 1, (((0 : ℕ) : ℚ) - (-1)) * (1 / 1) / 1,
        1 / 1⟩) ∧
    ((⟨0, -1, 1⟩ : Point3D) =
      ⟨(((0 : ℕ) : ℚ) - 0) * (1 / 1) / 1,
        -((((0 : ℕ) : ℚ) - (-1)) * (1 / 1) / 1), 1 / 1⟩) :=
  ⟨(C1_backprojection 1 1 0 (-1) 0 0 1 ⟨0, 1, 1⟩).1 (by norm_num [appCellPoint]),
   (C1_backprojection 1 1 0 (-1) 0 0 1 ⟨0, -1, 1⟩).2
     (by norm_num [androidCellPoint])⟩

/-! ## Claim C3 -/

/-- A width or height that is not positive yields an empty app point cloud. -/
lemma buildCloudApp_nonpos (depthMap : List ℚ) (width height : ℤ)
    (fx fy cx cy : ℚ) (hwh : width ≤ 0 ∨ height ≤ 0) :
    buildCloudApp depthMap width height fx fy cx cy = [] := by
  rcases hwh with hw | hh
  · unfold buildCloudApp
    rw [Int.toNat_of_nonpos hw]
    simp only [List.range_zero, List.filterMap_nil]
    exact flatMap_empty (List.range height.toNat)
  · unfold buildCloudApp
    rw [Int.toNat_of_nonpos hh]
    rfl

/-- A width or height that is not positive yields an empty android point
cloud. -/
lemma buildCloudAndroid_nonpos (depthMap : List ℚ) (width height : ℤ)
    (fx fy cx cy : ℚ) (hwh : width ≤ 0 ∨ height ≤ 0) :
    buildCloudAndroid depthMap width height fx fy cx cy = [] := by
  rcases hwh with hw | hh
  · unfold buildCloudAndroid
    rw [Int.toNat_of_nonpos hw]
    simp only [List.range_zero, List.filterMap_nil]
    exact flatMap_empty (List.range height.toNat)
  · unfold buildCloudAndroid
    rw [Int.toNat_of_nonpos hh]
    rfl

/-- Claim C3 (amended): neither implementation validates the input shape — no
comparison of the buffer length with `width * height` (only a raw pointer is
available) and no check on `width`/`height` — so no `InputShapeError`
rejection exists.  What a call with `width ≤ 0` or `height ≤ 0` actually does
is decided by the entry `reserve(width * height / 4)` call: when the truncated
`int` quotient is negative (`width * height ≤ -4`), the `int → size_t` wrap
makes `reserve` throw `std::length_error` before any loop — an accidental
hard death, not the specified validation; otherwise (`-4 < width * height ≤
0`) the call proceeds, the loops produce an empty cloud, and the ordinary
empty result is returned (`[]`, resp. `0` with the buffer untouched),
indistinguishable from a normal "no plane found" outcome. -/
theorem C3_no_shape_validation (depthMap : List ℚ) (width height : ℤ)
    (fx fy cx cy t : ℚ) (mi mx : ℤ) (s : ℕ → ℕ)
    (buf : List RansacPlaneResult) (mp : ℤ) (fuel : ℕ)
    (hwh : width ≤ 0 ∨ height ≤ 0) :
    (reserveThrows width height →
      findPlanesRansacCall depthMap width height fx fy cx cy t mi mx s = none ∧
      detect_walls_ransacCall depthMap width height fx fy cx cy t mi mx buf mp
        s fuel = none) ∧
    (¬ reserveThrows width height →
      findPlanesRansacCall depthMap width height fx fy cx cy t mi mx s =
        some [] ∧
      detect_walls_ransacCall depthMap width height fx fy cx cy t mi mx buf mp
        s fuel = some (0, buf)) := by
  have hA := buildCloudApp_nonpos depthMap width height fx fy cx cy hwh
  have hD := buildCloudAndroid_nonpos depthMap width height fx fy cx cy hwh
  constructor
  · intro hthrow
    constructor
    · simp only [findPlanesRansacCall]
      rw [if_pos hthrow]
    · simp only [detect_walls_ransacCall]
      rw [if_pos hthrow]
  · intro hok
    constructor
    · simp only [findPlanesRansacCall]
      rw [if_neg hok]
      refine congrArg some ?_
      simp only [findPlanesRansac, hA]
      rw [if_pos]
      right
      norm_num
    · simp only [detect_walls_ransacCall]
      rw [if_neg hok]
      simp only [detect_walls_ransac, hD]
      rw [if_pos]
      left
      norm_num

/-- Claim C3 (witness): a call with `width = 0`, `height = 4` and a buffer of
4 depth samples (so `width * height = 0 ≠ 4` and `width ≤ 0`; the reserve
argument is `0`, so `reserve` is benign) returns the ordinary empty result in
both implementations. -/
theorem C3_no_shape_validation_witness :
    findPlanesRansacCall [1, 1, 1, 1] 0 4 1 1 0 0 1 3 10 (fun k => k) =
      some [] ∧
    detect_walls_ransacCall [1, 1, 1, 1] 0 4 1 1 0 0 1 3 10 [⟨5, 6, 7, 8, 9⟩]
      1 (fun k => k) 5 = some (0, [⟨5, 6, 7, 8, 9⟩]) :=
  (C3_no_shape_validation [1, 1, 1, 1] 0 4 1 1 0 0 1 3 10 (fun k => k)
    [⟨5, 6, 7, 8, 9⟩] 1 5 (Or.inl le_rfl)).2 (by decide)

/-- Claim C3 (counterexample): the malformed call with `width = -2 ≤ 0`,
`height = 1` (buffer length `2 ≠ width * height`) is NOT rejected as a hard
failure: the reserve argument is `(-2 * 1) / 4 = 0` under C++ truncating
division, so `reserve` is benign, the loops run zero iterations, and both
implementations answer with the ordinary empty result — `findPlanesRansac`
returns the empty vector and `detect_walls_ransac` returns `0` with the
caller's buffer untouched, exactly what the claim denies. -/
theorem C3_counterexample :
    findPlanesRansacCall [1, 1] (-2) 1 1 1 0 0 1 3 10 (fun k => k) =
      some [] ∧
    detect_walls_ransacCall [1, 1] (-2) 1 1 1 0 0 1 3 10 [⟨5, 6, 7, 8, 9⟩] 1
      (fun k => k) 5 = some (0, [⟨5, 6, 7, 8, 9⟩]) := by
  have hA := buildCloudApp_nonpos [1, 1] (-2) 1 1 1 0 0 (Or.inl (by norm_num))
  have hD := buildCloudAndroid_nonpos [1, 1] (-2) 1 1 1 0 0
    (Or.inl (by norm_num))
  constructor
  · simp only [findPlanesRansacCall]
    rw [if_neg (by decide)]
    refine congrArg some ?_
    simp only [findPlanesRansac, hA]
    rw [if_pos]
    right
    norm_num
  · simp only [detect_walls_ransacCall]
    rw [if_neg (by decide)]
    simp only [detect_walls_ransac, hD]
    rw [if_pos]
    left
    norm_num

/-! ## Claim C2 -/

/-- Each app iteration advances the stream position by exactly 3 draws,
whatever branch is taken. -/
lemma appIter_pos (t : ℚ) (cloud : List Point3D) (s : ℕ → ℕ) (st : RState) :
    (appIter t cloud s st).pos = st.pos + 3 := by
  simp only [appIter]
  split
  · rfl
  · split
    · rfl
    · split <;> rfl

/-- An app iteration only reads the three stream values at positions
`st.pos`, `st.pos + 1`, `st.pos + 2`. -/
lemma appIter_congr (t : ℚ) (cloud : List Point3D) (s1 s2 : ℕ → ℕ) (st : RState)
    (h : ∀ j < 3, s1 (st.pos + j) = s2 (st.pos + j)) :
    appIter t cloud s1 st = appIter t cloud s2 st := by
  have e0 : s1 st.pos = s2 st.pos := by simpa using h 0 (by norm_num)
  have e1 : s1 (st.pos + 1) = s2 (st.pos + 1) := h 1 (by norm_num)
  have e2 : s1 (st.pos + 2) = s2 (st.pos + 2) := h 2 (by norm_num)
  simp only [appIter, e0, e1, e2]

/-- The app loop only reads the `3 * m` stream values from the starting
position on. -/
lemma appLoop_congr (t : ℚ) (cloud : List Point3D) (s1 s2 : ℕ → ℕ) :
    ∀ (m : ℕ) (st : RState),
      (∀ k, st.pos ≤ k → k < st.pos + 3 * m → s1 k = s2 k) →
      appLoop t cloud s1 m st = appLoop t cloud s2 m st := by
  intro m
  induction m with
  | zero => intro st _; rfl
  | succ m ih =>
    intro st h
    have hiter : appIter t cloud s1 st = appIter t cloud s2 st :=
      appIter_congr t cloud s1 s2 st
        (fun j hj => h (st.pos + j) (Nat.le_add_right _ _) (by omega))
    simp only [appLoop]
    rw [hiter]
    have hp := appIter_pos t cloud s2 st
    exact ih _ (fun k hk1 hk2 => h k (by omega) (by omega))

/-- Claim C2 (amended): the estimator's computation is a pure function of its
inputs and of the random draw stream: two runs that read the same first
`3 * maxIterations` draws produce bit-identical output.  No deterministic-seed
mode exists in the code, however: both implementations seed `std::mt19937`
from `std::random_device` on every call, so the stream itself is not
caller-controllable (see the counterexample). -/
theorem C2_stream_determinism (depthMap : List ℚ) (width height : ℤ)
    (fx fy cx cy t : ℚ) (mi mx : ℤ) (s1 s2 : ℕ → ℕ)
    (hs : ∀ k < 3 * mx.toNat, s1 k = s2 k) :
    findPlanesRansac depthMap width height fx fy cx cy t mi mx s1 =
      findPlanesRansac depthMap width height fx fy cx cy t mi mx s2 := by
  have hpos0 : initState.pos = 0 := rfl
  have hloop := appLoop_congr t (buildCloudApp depthMap width height fx fy cx cy)
    s1 s2 mx.toNat initState (fun k hk1 hk2 => hs k (by omega))
  simp only [findPlanesRansac, hloop]

/-- Claim C2 (witness): two streams that agree on the three draws consumed by
a single-iteration run give identical output. -/
theorem C2_stream_determinism_witness :
    findPlanesRansac [1, 1, 1, 1/2] 2 2 1 1 0 0 (1/2) 3 1 (fun k => k) =
      findPlanesRansac [1, 1, 1, 1/2] 2 2 1 1 0 0 (1/2) 3 1
        (fun k => if k < 3 then k else 7) :=
  C2_stream_determinism [1, 1, 1, 1/2] 2 2 1 1 0 0 (1/2) 3 1 (fun k => k)
    (fun k => if k < 3 then k else 7) (by decide)

/-- Claim C2 (counterexample): there is no deterministic-seed mode — the seed
is drawn from `std::random_device` inside each call, i.e. the draw stream is
an uncontrolled input, and the output genuinely depends on it: on the same
2×2 depth grid and parameters, the draw streams `0,1,2,...` and `0,1,3,...`
produce different planes (`z = 1` with 3 inliers vs. an oblique plane with 4
inliers), so two runs on identical caller inputs need not be bit-identical. -/
theorem C2_counterexample :
    findPlanesRansac [1, 1, 1, 1/2] 2 2 1 1 0 0 (1/2) 3 1
        (fun k => [0, 1, 2].getD k 0) ≠
      findPlanesRansac [1, 1, 1, 1/2] 2 2 1 1 0 0 (1/2) 3 1
        (fun k => [0, 1, 3].getD k 0) := by
  have e1 : findPlanesRansac [1, 1, 1, 1/2] 2 2 1 1 0 0 (1/2) 3 1
      (fun k => [0, 1, 2].getD k 0) = [⟨0, 0, 1, -1, 3⟩] := by
    norm_num [findPlanesRansac, buildCloudApp, appCellPoint, appLoop, appIter,
      calculatePlane, countInliers, isInlier, planeEval, normSq, initState,
      List.flatMap, List.filterMap_cons, List.filterMap_nil, List.countP_cons,
      List.countP_nil, show List.range 2 = [0, 1] from rfl,
      show Int.toNat 2 = 2 from rfl, show (1 : ℤ).toNat = 1 from rfl,
      show castSizeT 3 = 3 from rfl]
  have e2 : findPlanesRansac [1, 1, 1, 1/2] 2 2 1 1 0 0 (1/2) 3 1
      (fun k => [0, 1, 3].getD k 0) = [⟨0, -1, 2, -2, 4⟩] := by
    norm_num [findPlanesRansac, buildCloudApp, appCellPoint, appLoop, appIter,
      calculatePlane, countInliers, isInlier, planeEval, normSq, initState,
      List.flatMap, List.filterMap_cons, List.filterMap_nil, List.countP_cons,
      List.countP_nil, show List.range 2 = [0, 1] from rfl,
      show Int.toNat 2 = 2 from rfl, show (1 : ℤ).toNat = 1 from rfl,
      show castSizeT 3 = 3 from rfl]
  rw [e1, e2]
  norm_num

/-! ## Claim C4 -/

/-- A successful retry loop returns a value rejected by its predicate. -/
lemma drawUntil_not_bad (s : ℕ → ℕ) (n : ℕ) (bad : ℕ → Bool) :
    ∀ (fuel pos v q : ℕ), drawUntil s n bad fuel pos = some (v, q) →
      bad v = false := by
  intro fuel
  induction fuel with
  | zero => intro pos v q hsome; exact Option.noConfusion hsome
  | succ fuel ih =>
    intro pos v q hsome
    simp only [drawUntil] at hsome
    by_cases hb : bad (s pos % n) = true
    · rw [if_pos hb] at hsome
      exact ih _ _ _ hsome
    · rw [if_neg hb] at hsome
      injection hsome with hpair
      simp only [Prod.mk.injEq] at hpair
      rw [← hpair.1]
      exact Bool.eq_false_iff.mpr hb

/-- Claim C4 (amended): the two implementations differ.  In
`detect_walls_ransac` (android), collisions are resampled — `idx2` is redrawn
while equal to `idx1`, `idx3` while equal to `idx1` or `idx2` — so any triple
an iteration goes on to evaluate is pairwise distinct.  In `findPlanesRansac`
(app), a collision among the three draws instead makes the iteration
`continue`: the iteration is consumed, its best model untouched and no
candidate evaluated. -/
theorem C4_distinct_sampling (s : ℕ → ℕ) (n fuel pos i1 i2 i3 q : ℕ) (t : ℚ)
    (cloud : List Point3D) (st : RState) :
    (androidSample s n fuel pos = some (i1, i2, i3, q) →
      i1 ≠ i2 ∧ i1 ≠ i3 ∧ i2 ≠ i3) ∧
    (s st.pos % cloud.length = s (st.pos + 1) % cloud.length ∨
        s st.pos % cloud.length = s (st.pos + 2) % cloud.length ∨
        s (st.pos + 1) % cloud.length = s (st.pos + 2) % cloud.length →
      appIter t cloud s st = ⟨st.pos + 3, st.bestCount, st.bestPlane⟩) := by
  constructor
  · intro hsome
    simp only [androidSample] at hsome
    split at hsome
    · exact Option.noConfusion hsome
    · rename_i v2 q2 heq2
      split at hsome
      · exact Option.noConfusion hsome
      · rename_i v3 q3 heq3
        have hb2 := drawUntil_not_bad s n _ fuel (pos + 1) v2 q2 heq2
        have hb3 := drawUntil_not_bad s n _ fuel q2 v3 q3 heq3
        injection hsome with hpair
        simp only [Prod.mk.injEq] at hpair
        obtain ⟨h1, h2, h3, _⟩ := hpair
        simp only [beq_eq_false_iff_ne, ne_eq] at hb2
        simp only [Bool.or_eq_false_iff, beq_eq_false_iff_ne, ne_eq] at hb3
        subst h1 h2 h3
        exact ⟨fun hc => hb2 hc.symm, fun hc => hb3.1 hc.symm,
          fun hc => hb3.2 hc.symm⟩
  · intro hcol
    simp only [appIter]
    rw [if_pos hcol]

/-- Claim C4 (witness): the android sampler applied to the stream
`0, 0, 1, 2, ...` on a 4-point cloud redraws past the collision and returns
the distinct triple `(0, 1, 2)`; the app iteration on the all-zeros stream
takes the collision branch and merely advances the position. -/
theorem C4_distinct_sampling_witness :
    ((0 : ℕ) ≠ 1 ∧ (0 : ℕ) ≠ 2 ∧ (1 : ℕ) ≠ 2) ∧
    appIter (1/2) [⟨0, 0, 1⟩, ⟨1, 0, 1⟩, ⟨0, 1, 1⟩, ⟨2, 2, 2⟩] (fun _ => 0)
        initState = ⟨3, -1, ⟨0, 0, 0, 0⟩⟩ :=
  ⟨(C4_distinct_sampling (fun k => [0, 0, 1, 2].getD k 0) 4 2 0 0 1 2 4 (1/2)
      [⟨0, 0, 1⟩, ⟨1, 0, 1⟩, ⟨0, 1, 1⟩, ⟨2, 2, 2⟩] initState).1 (by decide),
   (C4_distinct_sampling (fun _ => 0) 4 2 0 0 1 2 4 (1/2)
      [⟨0, 0, 1⟩, ⟨1, 0, 1⟩, ⟨0, 1, 1⟩, ⟨2, 2, 2⟩] initState).2 (by decide)⟩

/-- Claim C4 (counterexample): in `findPlanesRansac` an iteration IS consumed
by a collision.  On the 2×2 grid (4-point cloud) with `minInliers = 3` and a
budget of one iteration, the all-zeros draw stream collides (`idx1 = idx2 =
idx3 = 0`), the sole iteration is skipped, and the call returns empty — while
the same call whose single iteration evaluates the distinct triple `(0, 1, 2)`
returns a qualifying plane.  Under the claim (resampling until distinct) the
first call's iteration would also have evaluated a distinct triple and
emitted a plane. -/
theorem C4_counterexample :
    findPlanesRansac [1, 1, 1, 1/2] 2 2 1 1 0 0 (1/2) 3 1 (fun _ => 0) = [] ∧
    findPlanesRansac [1, 1, 1, 1/2] 2 2 1 1 0 0 (1/2) 3 1 (fun k => k) =
      [⟨0, 0, 1, -1, 3⟩] := by
  constructor
  · norm_num [findPlanesRansac, buildCloudApp, appCellPoint, appLoop, appIter,
      calculatePlane, countInliers, isInlier, planeEval, normSq, initState,
      List.flatMap, List.filterMap_cons, List.filterMap_nil, List.countP_cons,
      List.countP_nil, show List.range 2 = [0, 1] from rfl,
      show Int.toNat 2 = 2 from rfl, show (1 : ℤ).toNat = 1 from rfl,
      show castSizeT 3 = 3 from rfl]
  · norm_num [findPlanesRansac, buildCloudApp, appCellPoint, appLoop, appIter,
      calculatePlane, countInliers, isInlier, planeEval, normSq, initState,
      List.flatMap, List.filterMap_cons, List.filterMap_nil, List.countP_cons,
      List.countP_nil, show List.range 2 = [0, 1] from rfl,
      show Int.toNat 2 = 2 from rfl, show (1 : ℤ).toNat = 1 from rfl,
      show castSizeT 3 = 3 from rfl]

/-! ## Claim C6 -/

/-- Claim C6 (amended): both implementations return the empty result
immediately when the cloud has fewer than 3 points or fewer than
`(size_t) minInliers` points; `findPlanesRansac` emits exactly one plane
(the retained best, with its count) iff the best count reaches `minInliers`,
and never more than one; `detect_walls_ransac` returns either `0` with the
buffer untouched or `1`, and — the amendment — its emission additionally
requires the caller's capacity `max_planes ≥ 1`, so a qualifying plane is
still answered with `0` when `max_planes < 1`. -/
theorem C6_emission (depthMap : List ℚ) (width height : ℤ)
    (fx fy cx cy t : ℚ) (mi mx : ℤ) (s : ℕ → ℕ)
    (buf : List RansacPlaneResult) (mp : ℤ) (fuel : ℕ) :
    ((buildCloudApp depthMap width height fx fy cx cy).length < 3 ∨
        (buildCloudApp depthMap width height fx fy cx cy).length < castSizeT mi →
      findPlanesRansac depthMap width height fx fy cx cy t mi mx s = []) ∧
    (¬((buildCloudApp depthMap width height fx fy cx cy).length < castSizeT mi ∨
        (buildCloudApp depthMap width height fx fy cx cy).length < 3) →
      findPlanesRansac depthMap width height fx fy cx cy t mi mx s =
        (if mi ≤ (appLoop t (buildCloudApp depthMap width height fx fy cx cy) s
              mx.toNat initState).bestCount then
          [⟨(appLoop t (buildCloudApp depthMap width height fx fy cx cy) s
              mx.toNat initState).bestPlane.a,
            (appLoop t (buildCloudApp depthMap width height fx fy cx cy) s
              mx.toNat initState).bestPlane.b,
            (appLoop t (buildCloudApp depthMap width height fx fy cx cy) s
              mx.toNat initState).bestPlane.c,
            (appLoop t (buildCloudApp depthMap width height fx fy cx cy) s
              mx.toNat initState).bestPlane.d,
            (appLoop t (buildCloudApp depthMap width height fx fy cx cy) s
              mx.toNat initState).bestCount⟩]
        else [])) ∧
    (findPlanesRansac depthMap width height fx fy cx cy t mi mx s).length ≤ 1 ∧
    ((buildCloudAndroid depthMap width height fx fy cx cy).length < 3 ∨
        (buildCloudAndroid depthMap width height fx fy cx cy).length <
          castSizeT mi →
      detect_walls_ransac depthMap width height fx fy cx cy t mi mx buf mp s
        fuel = some (0, buf)) ∧
    (∀ (r : ℤ) (buf' : List RansacPlaneResult),
      detect_walls_ransac depthMap width height fx fy cx cy t mi mx buf mp s
          fuel = some (r, buf') →
      (r = 1 ∧ 1 ≤ mp) ∨ (r = 0 ∧ buf' = buf)) := by
  refine ⟨?_, ?_, ?_, ?_, ?_⟩
  · intro hlt
    simp only [findPlanesRansac]
    rw [if_pos hlt.symm]
  · intro hge
    simp only [findPlanesRansac]
    rw [if_neg hge]
  · simp only [findPlanesRansac]
    split_ifs <;> simp
  · intro hlt
    simp only [detect_walls_ransac]
    rw [if_pos hlt]
  · intro r buf' hcall
    simp only [detect_walls_ransac] at hcall
    split_ifs at hcall with hearly
    · injection hcall with hpair
      simp only [Prod.mk.injEq] at hpair
      exact Or.inr ⟨hpair.1.symm, hpair.2.symm⟩
    · split at hcall
      · exact Option.noConfusion hcall
      · split_ifs at hcall with hemit
        · injection hcall with hpair
          simp only [Prod.mk.injEq] at hpair
          exact Or.inl ⟨hpair.1.symm, hemit.2⟩
        · injection hcall with hpair
          simp only [Prod.mk.injEq] at hpair
          exact Or.inr ⟨hpair.1.symm, hpair.2.symm⟩

/-- Claim C6 (witness): on an all-invalid 1×2 grid both implementations take
the early exit (empty cloud), and on the 2×2 grid's successful call the
android return pair satisfies the emission disjunction. -/
theorem C6_emission_witness :
    findPlanesRansac [0, 0] 2 1 1 1 0 0 1 3 5 (fun k => k) = [] ∧
    detect_walls_ransac [0, 0] 2 1 1 1 0 0 1 3 5 [⟨9, 9, 9, 9, 9⟩] 1
      (fun k => k) 5 = some (0, [⟨9, 9, 9, 9, 9⟩]) ∧
    (((1 : ℤ) = 1 ∧ (1 : ℤ) ≤ 1) ∨
      ((1 : ℤ) = 0 ∧ [(⟨0, 0, -1, 1, 3⟩ : RansacPlaneResult)] = [⟨9, 9, 9, 9, 9⟩])) :=
  ⟨(C6_emission [0, 0] 2 1 1 1 0 0 1 3 5 (fun k => k) [⟨9, 9, 9, 9, 9⟩] 1 5).1
    (by norm_num [buildCloudApp, appCellPoint, List.flatMap,
      List.filterMap_cons, List.filterMap_nil,
      show List.range 2 = [0, 1] from rfl, show List.range 1 = [0] from rfl,
      show Int.toNat 2 = 2 from rfl, show Int.toNat 1 = 1 from rfl]),
   (C6_emission [0, 0] 2 1 1 1 0 0 1 3 5 (fun k => k) [⟨9, 9, 9, 9, 9⟩] 1
      5).2.2.2.1
    (by norm_num [buildCloudAndroid, androidCellPoint, List.flatMap,
      List.filterMap_cons, List.filterMap_nil,
      show List.range 2 = [0, 1] from rfl, show List.range 1 = [0] from rfl,
      show Int.toNat 2 = 2 from rfl, show Int.toNat 1 = 1 from rfl]),
   (C6_emission [1, 1, 1, 1/2] 2 2 1 1 0 0 (1/2) 3 1 (fun k => k)
      [⟨9, 9, 9, 9, 9⟩] 1 5).2.2.2.2 1 [⟨0, 0, -1, 1, 3⟩]
    (by norm_num [detect_walls_ransac, buildCloudAndroid, androidCellPoint,
      androidLoop, androidIter, androidSample, drawUntil, androidCandidate,
      countInliers, isInlier, planeEval, normSq, initState,
      List.flatMap, List.filterMap_cons, List.filterMap_nil, List.countP_cons,
      List.countP_nil, show List.range 2 = [0, 1] from rfl,
      show Int.toNat 2 = 2 from rfl, show (1 : ℤ).toNat = 1 from rfl,
      show castSizeT 3 = 3 from rfl])⟩

/-- Claim C6 (counterexample): `detect_walls_ransac` does NOT emit a plane for
every input whose best count reaches `minInliers`: on the 2×2 grid the call
with `max_planes = 1` emits the qualifying plane `(0, 0, -1, 1)` with 3
inliers, but the identical call with `max_planes = 0` answers `0` planes even
though the same qualifying plane was found. -/
theorem C6_counterexample :
    detect_walls_ransac [1, 1, 1, 1/2] 2 2 1 1 0 0 (1/2) 3 1 [⟨9, 9, 9, 9, 9⟩]
      0 (fun k => k) 5 = some (0, [⟨9, 9, 9, 9, 9⟩]) ∧
    detect_walls_ransac [1, 1, 1, 1/2] 2 2 1 1 0 0 (1/2) 3 1 [⟨9, 9, 9, 9, 9⟩]
      1 (fun k => k) 5 = some (1, [⟨0, 0, -1, 1, 3⟩]) := by
  constructor
  · norm_num [detect_walls_ransac, buildCloudAndroid, androidCellPoint,
      androidLoop, androidIter, androidSample, drawUntil, androidCandidate,
      countInliers, isInlier, planeEval, normSq, initState,
      List.flatMap, List.filterMap_cons, List.filterMap_nil, List.countP_cons,
      List.countP_nil, show List.range 2 = [0, 1] from rfl,
      show Int.toNat 2 = 2 from rfl, show (1 : ℤ).toNat = 1 from rfl,
      show castSizeT 3 = 3 from rfl]
  · norm_num [detect_walls_ransac, buildCloudAndroid, androidCellPoint,
      androidLoop, androidIter, androidSample, drawUntil, androidCandidate,
      countInliers, isInlier, planeEval, normSq, initState,
      List.flatMap, List.filterMap_cons, List.filterMap_nil, List.countP_cons,
      List.countP_nil, show List.range 2 = [0, 1] from rfl,
      show Int.toNat 2 = 2 from rfl, show (1 : ℤ).toNat = 1 from rfl,
      show castSizeT 3 = 3 from rfl]

/-! ## Claim C7 -/

/-- A candidate accepted by `calculatePlane` passed the squared degeneracy
guard. -/
lemma calculatePlane_normSq (p1 p2 p3 : Point3D) (pl : Plane)
    (h : calculatePlane p1 p2 p3 = some pl) : 10000 / 2 ^ 46 < normSq pl := by
  simp only [calculatePlane] at h
  split_ifs at h with hguard
  injection h with h'
  rw [← h']
  simpa [normSq] using hguard

/-- A candidate accepted by the android degeneracy guard has squared normal
magnitude at least `1e-12`. -/
lemma androidCandidate_normSq (p1 p2 p3 : Point3D) (pl : Plane)
    (h : androidCandidate p1 p2 p3 = some pl) :
    1 / 1000000000000 ≤ normSq pl := by
  simp only [androidCandidate] at h
  split_ifs at h with hguard
  injection h with h'
  rw [← h']
  simpa [normSq] using not_lt.1 hguard

/-- One app iteration preserves the invariant "either no best model yet, or
the best plane passed the app degeneracy guard". -/
lemma appIter_norm (t : ℚ) (cloud : List Point3D) (s : ℕ → ℕ) (st : RState)
    (h : st.bestCount = -1 ∨ 10000 / 2 ^ 46 < normSq st.bestPlane) :
    (appIter t cloud s st).bestCount = -1 ∨
      10000 / 2 ^ 46 < normSq (appIter t cloud s st).bestPlane := by
  simp only [appIter]
  split
  · exact h
  · split
    · exact h
    · rename_i pl heq
      split
      · exact Or.inr (calculatePlane_normSq _ _ _ _ heq)
      · exact h

/-- The app loop preserves the best-plane invariant. -/
lemma appLoop_norm (t : ℚ) (cloud : List Point3D) (s : ℕ → ℕ) :
    ∀ (m : ℕ) (st : RState),
      (st.bestCount = -1 ∨ 10000 / 2 ^ 46 < normSq st.bestPlane) →
      ((appLoop t cloud s m st).bestCount = -1 ∨
        10000 / 2 ^ 46 < normSq (appLoop t cloud s m st).bestPlane) := by
  intro m
  induction m with
  | zero => intro st h; exact h
  | succ m ih =>
    intro st h
    exact ih _ (appIter_norm t cloud s st h)

/-- One android iteration preserves the invariant "either no best model yet,
or the best plane passed the android degeneracy guard". -/
lemma androidIter_norm (t : ℚ) (cloud : List Point3D) (s : ℕ → ℕ) (fuel : ℕ)
    (st st' : RState) (hstep : androidIter t cloud s fuel st = some st')
    (h : st.bestCount = -1 ∨ 1 / 1000000000000 ≤ normSq st.bestPlane) :
    st'.bestCount = -1 ∨ 1 / 1000000000000 ≤ normSq st'.bestPlane := by
  simp only [androidIter] at hstep
  split at hstep
  · exact Option.noConfusion hstep
  · split at hstep
    · injection hstep with h'
      rw [← h']
      exact h
    · rename_i pl heq
      split_ifs at hstep <;> injection hstep with h' <;> rw [← h']
      · exact Or.inr (androidCandidate_normSq _ _ _ _ heq)
      · exact h

/-- The android loop preserves the best-plane invariant. -/
lemma androidLoop_norm (t : ℚ) (cloud : List Point3D) (s : ℕ → ℕ) (fuel : ℕ) :
    ∀ (m : ℕ) (st st' : RState),
      androidLoop t cloud s fuel m st = some st' →
      (st.bestCount = -1 ∨ 1 / 1000000000000 ≤ normSq st.bestPlane) →
      (st'.bestCount = -1 ∨ 1 / 1000000000000 ≤ normSq st'.bestPlane) := by
  intro m
  induction m with
  | zero =>
    intro st st' hloop h
    injection hloop with h'
    rw [← h']
    exact h
  | succ m ih =>
    intro st st' hloop h
    simp only [androidLoop] at hloop
    split at hloop
    · exact Option.noConfusion hloop
    · rename_i stmid hstep
      exact ih _ _ hloop (androidIter_norm t cloud s fuel st stmid hstep h)

/-- Dividing a plane's normal by the square root of its squared magnitude
yields a unit vector, provided the magnitude is positive. -/
lemma unit_of_normSq (pl : Plane) (hpos : 0 < normSq pl) :
    ((pl.a : ℝ) / Real.sqrt ((normSq pl : ℚ) : ℝ)) ^ 2 +
      ((pl.b : ℝ) / Real.sqrt ((normSq pl : ℚ) : ℝ)) ^ 2 +
      ((pl.c : ℝ) / Real.sqrt ((normSq pl : ℚ) : ℝ)) ^ 2 = 1 := by
  have hS : (0 : ℝ) < ((normSq pl : ℚ) : ℝ) := by exact_mod_cast hpos
  have hne : Real.sqrt ((normSq pl : ℚ) : ℝ) ≠ 0 :=
    ne_of_gt (Real.sqrt_pos.mpr hS)
  field_simp
  simp only [normSq]
  push_cast
  ring

/-- Claim C7: every emitted plane has a well-defined unit normal within
exact arithmetic — its unnormalised cross-product normal strictly passed the
implementation's degeneracy guard (so collinear/coincident triples, whose
cross product has near-zero magnitude, never become the emitted plane; in
particular the normalising division is by a strictly positive length, the
only NaN source of `calculatePlane`), the normalised components
`(a, b, c) / sqrt (a² + b² + c²)` have squared norm exactly 1 over `ℝ`, and
the emitted support count is at least the caller's `minInliers`. -/
theorem C7_emitted_plane_valid (depthMap : List ℚ) (width height : ℤ)
    (fx fy cx cy t : ℚ) (mi mx : ℤ) (s : ℕ → ℕ) (r : PlaneResult)
    (buf buf' : List RansacPlaneResult) (mp : ℤ) (fuel : ℕ)
    (r2 : RansacPlaneResult) (hmi : 0 ≤ mi) :
    (findPlanesRansac depthMap width height fx fy cx cy t mi mx s = [r] →
      10000 / 2 ^ 46 < normSq ⟨r.A, r.B, r.C, r.D⟩ ∧
      mi ≤ r.numInliers ∧
      ((r.A : ℝ) / Real.sqrt ((normSq ⟨r.A, r.B, r.C, r.D⟩ : ℚ) : ℝ)) ^ 2 +
        ((r.B : ℝ) / Real.sqrt ((normSq ⟨r.A, r.B, r.C, r.D⟩ : ℚ) : ℝ)) ^ 2 +
        ((r.C : ℝ) / Real.sqrt ((normSq ⟨r.A, r.B, r.C, r.D⟩ : ℚ) : ℝ)) ^ 2
          = 1) ∧
    (detect_walls_ransac depthMap width height fx fy cx cy t mi mx buf mp s
        fuel = some (1, buf') →
      buf'.get? 0 = some r2 →
      1 / 1000000000000 ≤ normSq ⟨r2.a, r2.b, r2.c, r2.d⟩ ∧
      mi ≤ r2.inlier_count ∧
      ((r2.a : ℝ) / Real.sqrt ((normSq ⟨r2.a, r2.b, r2.c, r2.d⟩ : ℚ) : ℝ)) ^ 2 +
        ((r2.b : ℝ) / Real.sqrt ((normSq ⟨r2.a, r2.b, r2.c, r2.d⟩ : ℚ) : ℝ)) ^ 2 +
        ((r2.c : ℝ) / Real.sqrt ((normSq ⟨r2.a, r2.b, r2.c, r2.d⟩ : ℚ) : ℝ)) ^ 2
          = 1) := by
  constructor
  · intro hcall
    simp only [findPlanesRansac] at hcall
    split_ifs at hcall with hearly hbest
    have hinv := appLoop_norm t (buildCloudApp depthMap width height fx fy cx cy)
      s mx.toNat initState (Or.inl rfl)
    rcases hinv with hneg | hnorm
    · rw [hneg] at hbest
      omega
    · simp only [List.cons.injEq, and_true] at hcall
      rw [← hcall]
      refine ⟨hnorm, hbest, unit_of_normSq _ ?_⟩
      exact lt_trans (by norm_num) hnorm
  · intro hcall hget
    simp only [detect_walls_ransac] at hcall
    split_ifs at hcall with hearly
    · injection hcall with hpair
      simp only [Prod.mk.injEq] at hpair
      exact absurd hpair.1 (by norm_num)
    · split at hcall
      · exact Option.noConfusion hcall
      · rename_i st hloop
        split_ifs at hcall with hemit
        · injection hcall with hpair
          simp only [Prod.mk.injEq] at hpair
          have hinv := androidLoop_norm t
            (buildCloudAndroid depthMap width height fx fy cx cy) s fuel
            mx.toNat initState st hloop (Or.inl rfl)
          rcases hinv with hneg | hnorm
          · rw [hneg] at hemit
            have := hemit.1
            omega
          · rcases buf with _ | ⟨b0, bs⟩
            · rw [← hpair.2] at hget
              simp at hget
            · rw [← hpair.2] at hget
              simp only [List.set_cons_zero, List.get?_cons_zero,
                Option.some.injEq] at hget
              rw [← hget]
              refine ⟨hnorm, hemit.1, unit_of_normSq _ ?_⟩
              exact lt_of_lt_of_le (by norm_num) hnorm
        · injection hcall with hpair
          simp only [Prod.mk.injEq] at hpair
          exact absurd hpair.1 (by norm_num)

/-- Claim C7 (witness): on the 2×2 grid run both implementations emit a
qualifying plane — `(0, 0, 1, -1)` with 3 inliers (app) and `(0, 0, -1, 1)`
with 3 inliers (android) — and both satisfy the validity conjunction. -/
theorem C7_emitted_plane_valid_witness :
    ((10000 : ℚ) / 2 ^ 46 < normSq ⟨0, 0, 1, -1⟩ ∧
      (3 : ℤ) ≤ 3 ∧
      (((0 : ℚ) : ℝ) / Real.sqrt ((normSq (⟨0, 0, 1, -1⟩ : Plane) : ℚ) : ℝ)) ^ 2 +
        (((0 : ℚ) : ℝ) / Real.sqrt ((normSq (⟨0, 0, 1, -1⟩ : Plane) : ℚ) : ℝ)) ^ 2 +
        (((1 : ℚ) : ℝ) / Real.sqrt ((normSq (⟨0, 0, 1, -1⟩ : Plane) : ℚ) : ℝ)) ^ 2
          = 1) ∧
    ((1 : ℚ) / 1000000000000 ≤ normSq ⟨0, 0, -1, 1⟩ ∧
      (3 : ℤ) ≤ 3 ∧
      (((0 : ℚ) : ℝ) / Real.sqrt ((normSq (⟨0, 0, -1, 1⟩ : Plane) : ℚ) : ℝ)) ^ 2 +
        (((0 : ℚ) : ℝ) / Real.sqrt ((normSq (⟨0, 0, -1, 1⟩ : Plane) : ℚ) : ℝ)) ^ 2 +
        ((((-1) : ℚ) : ℝ) / Real.sqrt ((normSq (⟨0, 0, -1, 1⟩ : Plane) : ℚ) : ℝ)) ^ 2
          = 1) := by
  have H := C7_emitted_plane_valid [1, 1, 1, 1/2] 2 2 1 1 0 0 (1/2) 3 1
    (fun k => k) ⟨0, 0, 1, -1, 3⟩ [⟨9, 9, 9, 9, 9⟩] [⟨0, 0, -1, 1, 3⟩] 1 5
    ⟨0, 0, -1, 1, 3⟩ (by norm_num)
  refine ⟨H.1 ?_, H.2 ?_ rfl⟩
  · norm_num [findPlanesRansac, buildCloudApp, appCellPoint, appLoop, appIter,
      calculatePlane, countInliers, isInlier, planeEval, normSq, initState,
      List.flatMap, List.filterMap_cons, List.filterMap_nil, List.countP_cons,
      List.countP_nil, show List.range 2 = [0, 1] from rfl,
      show Int.toNat 2 = 2 from rfl, show (1 : ℤ).toNat = 1 from rfl,
      show castSizeT 3 = 3 from rfl]
  · norm_num [detect_walls_ransac, buildCloudAndroid, androidCellPoint,
      androidLoop, androidIter, androidSample, drawUntil, androidCandidate,
      countInliers, isInlier, planeEval, normSq, initState,
      List.flatMap, List.filterMap_cons, List.filterMap_nil, List.countP_cons,
      List.countP_nil, show List.range 2 = [0, 1] from rfl,
      show Int.toNat 2 = 2 from rfl, show (1 : ℤ).toNat = 1 from rfl,
      show castSizeT 3 = 3 from rfl]

/-! ## Claim C8 -/

/-- Claim C8: the scoring step counts, over the ENTIRE cloud (the three
sampled points included — `countInliers` is by definition a scan of the whole
cloud), exactly the points whose unsigned distance
`|Â·x + B̂·y + Ĉ·z + D̂|` to the normalised candidate plane is strictly less
than `distanceThreshold`; a point at distance exactly the threshold is not
counted.  The rational test `0 < t ∧ (a·x+b·y+c·z+d)² < t²·(a²+b²+c²)` used by
the embedding is proved equivalent over `ℝ` to the C++ test on the normalised
coefficients. -/
theorem C8_inlier_test (pl : Plane) (p : Point3D) (t : ℚ)
    (hS : 0 < normSq pl) :
    (isInlier t pl p = true ↔
      |(pl.a : ℝ) / Real.sqrt ((normSq pl : ℚ) : ℝ) * (p.x : ℝ) +
          (pl.b : ℝ) / Real.sqrt ((normSq pl : ℚ) : ℝ) * (p.y : ℝ) +
          (pl.c : ℝ) / Real.sqrt ((normSq pl : ℚ) : ℝ) * (p.z : ℝ) +
          (pl.d : ℝ) / Real.sqrt ((normSq pl : ℚ) : ℝ)| < (t : ℝ)) ∧
    (∀ cloud : List Point3D,
      countInliers t pl cloud = cloud.countP (isInlier t pl)) ∧
    (|(pl.a : ℝ) / Real.sqrt ((normSq pl : ℚ) : ℝ) * (p.x : ℝ) +
          (pl.b : ℝ) / Real.sqrt ((normSq pl : ℚ) : ℝ) * (p.y : ℝ) +
          (pl.c : ℝ) / Real.sqrt ((normSq pl : ℚ) : ℝ) * (p.z : ℝ) +
          (pl.d : ℝ) / Real.sqrt ((normSq pl : ℚ) : ℝ)| = (t : ℝ) →
      isInlier t pl p = false) := by
  have hSR : (0 : ℝ) < ((normSq pl : ℚ) : ℝ) := by exact_mod_cast hS
  have hL : 0 < Real.sqrt ((normSq pl : ℚ) : ℝ) := Real.sqrt_pos.mpr hSR
  have hL2 : Real.sqrt ((normSq pl : ℚ) : ℝ) ^ 2 = ((normSq pl : ℚ) : ℝ) :=
    Real.sq_sqrt hSR.le
  have key : (pl.a : ℝ) / Real.sqrt ((normSq pl : ℚ) : ℝ) * (p.x : ℝ) +
      (pl.b : ℝ) / Real.sqrt ((normSq pl : ℚ) : ℝ) * (p.y : ℝ) +
      (pl.c : ℝ) / Real.sqrt ((normSq pl : ℚ) : ℝ) * (p.z : ℝ) +
      (pl.d : ℝ) / Real.sqrt ((normSq pl : ℚ) : ℝ) =
      ((planeEval pl p : ℚ) : ℝ) / Real.sqrt ((normSq pl : ℚ) : ℝ) := by
    simp only [planeEval]
    push_cast
    ring
  have hiff : isInlier t pl p = true ↔
      |((planeEval pl p : ℚ) : ℝ) / Real.sqrt ((normSq pl : ℚ) : ℝ)| < (t : ℝ) := by
    rw [isInlier, decide_eq_true_eq]
    rw [abs_div, abs_of_pos hL, div_lt_iff₀ hL]
    constructor
    · rintro ⟨ht, hlt⟩
      have htR : (0 : ℝ) < (t : ℝ) := by exact_mod_cast ht
      have hltR : ((planeEval pl p : ℚ) : ℝ) ^ 2 <
          (t : ℝ) ^ 2 * ((normSq pl : ℚ) : ℝ) := by exact_mod_cast hlt
      have h2 : |((planeEval pl p : ℚ) : ℝ)| ^ 2 <
          ((t : ℝ) * Real.sqrt ((normSq pl : ℚ) : ℝ)) ^ 2 := by
        rw [sq_abs, mul_pow, hL2]
        exact hltR
      exact lt_of_pow_lt_pow_left₀ 2 (by positivity) h2
    · intro habs
      have ht : (0 : ℝ) < (t : ℝ) := by
        have h0 : (0 : ℝ) ≤ |((planeEval pl p : ℚ) : ℝ)| := abs_nonneg _
        nlinarith [Real.sqrt_nonneg ((normSq pl : ℚ) : ℝ), hL]
      refine ⟨by exact_mod_cast ht, ?_⟩
      have h2 : ((planeEval pl p : ℚ) : ℝ) ^ 2 <
          ((t : ℝ) * Real.sqrt ((normSq pl : ℚ) : ℝ)) ^ 2 := by
        rw [← sq_abs]
        have hnn : (0 : ℝ) ≤ |((planeEval pl p : ℚ) : ℝ)| := abs_nonneg _
        nlinarith
      rw [mul_pow, hL2] at h2
      exact_mod_cast h2
  refine ⟨by rw [key]; exact hiff, fun cloud => rfl, ?_⟩
  intro heq
  rw [key] at heq
  cases hb : isInlier t pl p
  · rfl
  · exfalso
    have hlt := hiff.mp hb
    rw [heq] at hlt
    exact lt_irrefl _ hlt

/-- Claim C8 (witness): the inlier test on the plane with unnormalised normal
`(0, 0, 2)` at the point `(1, 1, 1)` and threshold `3`: the normalised
distance is `|2·1| / 2 = 1 < 3`. -/
theorem C8_inlier_test_witness :
    (isInlier 3 ⟨0, 0, 2, 0⟩ ⟨1, 1, 1⟩ = true ↔
      |((0 : ℚ) : ℝ) / Real.sqrt ((normSq ⟨0, 0, 2, 0⟩ : ℚ) : ℝ) * ((1 : ℚ) : ℝ) +
          ((0 : ℚ) : ℝ) / Real.sqrt ((normSq ⟨0, 0, 2, 0⟩ : ℚ) : ℝ) * ((1 : ℚ) : ℝ) +
          ((2 : ℚ) : ℝ) / Real.sqrt ((normSq ⟨0, 0, 2, 0⟩ : ℚ) : ℝ) * ((1 : ℚ) : ℝ) +
          ((0 : ℚ) : ℝ) / Real.sqrt ((normSq ⟨0, 0, 2, 0⟩ : ℚ) : ℝ)| < ((3 : ℚ) : ℝ)) ∧
    (∀ cloud : List Point3D,
      countInliers 3 ⟨0, 0, 2, 0⟩ cloud = cloud.countP (isInlier 3 ⟨0, 0, 2, 0⟩)) ∧
    (|((0 : ℚ) : ℝ) / Real.sqrt ((normSq ⟨0, 0, 2, 0⟩ : ℚ) : ℝ) * ((1 : ℚ) : ℝ) +
          ((0 : ℚ) : ℝ) / Real.sqrt ((normSq ⟨0, 0, 2, 0⟩ : ℚ) : ℝ) * ((1 : ℚ) : ℝ) +
          ((2 : ℚ) : ℝ) / Real.sqrt ((normSq ⟨0, 0, 2, 0⟩ : ℚ) : ℝ) * ((1 : ℚ) : ℝ) +
          ((0 : ℚ) : ℝ) / Real.sqrt ((normSq ⟨0, 0, 2, 0⟩ : ℚ) : ℝ)| = ((3 : ℚ) : ℝ) →
      isInlier 3 ⟨0, 0, 2, 0⟩ ⟨1, 1, 1⟩ = false) :=
  C8_inlier_test ⟨0, 0, 2, 0⟩ ⟨1, 1, 1⟩ 3 (by norm_num [normSq])

/-! ## Claim C9 -/

/-- Characterisation of the strict-improvement update rule over a candidate
list: either no candidate beats the initial best (which is then kept), or the
final best is the FIRST candidate in iteration order whose count is never
beaten later and is not reached earlier — ties keep the earlier model. -/
lemma bestFold_spec :
    ∀ (l : List (ℕ × Plane)) (b : ℤ × Plane),
      (bestFold b l = b ∧ ∀ c ∈ l, (c.1 : ℤ) ≤ b.1) ∨
      (∃ pre c post, l = pre ++ c :: post ∧ bestFold b l = ((c.1 : ℤ), c.2) ∧
        b.1 < (c.1 : ℤ) ∧ (∀ d ∈ pre, (d.1 : ℤ) ≤ b.1 ∨ d.1 < c.1) ∧
        (∀ d ∈ post, d.1 ≤ c.1)) := by
  intro l
  induction l with
  | nil => intro b; exact Or.inl ⟨rfl, by simp⟩
  | cons a tl ih =>
    intro b
    by_cases hab : b.1 < (a.1 : ℤ)
    · have hstep : bestFold b (a :: tl) = bestFold ((a.1 : ℤ), a.2) tl := by
        simp only [bestFold, if_pos hab]
      rcases ih ((a.1 : ℤ), a.2) with ⟨heq, hle⟩ |
        ⟨pre, c, post, hsplit, heq, hlt, hpre, hpost⟩
      · right
        refine ⟨[], a, tl, by simp, by rw [hstep, heq], hab, by simp, ?_⟩
        intro d hd
        have h1 : (d.1 : ℤ) ≤ (a.1 : ℤ) := hle d hd
        exact_mod_cast h1
      · right
        refine ⟨a :: pre, c, post, by simp [hsplit], by rw [hstep, heq],
          lt_trans hab hlt, ?_, hpost⟩
        intro d hd
        rcases List.mem_cons.mp hd with rfl | hd'
        · right
          have h1 : ((d.1 : ℤ)) < (c.1 : ℤ) := hlt
          exact_mod_cast h1
        · rcases hpre d hd' with h1 | h1
          · right
            have h2 : (d.1 : ℤ) ≤ (a.1 : ℤ) := h1
            have h3 : ((a.1 : ℤ)) < (c.1 : ℤ) := hlt
            exact_mod_cast lt_of_le_of_lt h2 h3
          · exact Or.inr h1
    · have hstep : bestFold b (a :: tl) = bestFold b tl := by
        simp only [bestFold, if_neg hab]
      rcases ih b with ⟨heq, hle⟩ | ⟨pre, c, post, hsplit, heq, hlt, hpre, hpost⟩
      · left
        refine ⟨by rw [hstep, heq], ?_⟩
        intro d hd
        rcases List.mem_cons.mp hd with rfl | hd'
        · exact not_lt.1 hab
        · exact hle d hd'
      · right
        refine ⟨a :: pre, c, post, by simp [hsplit], by rw [hstep, heq], hlt,
          ?_, hpost⟩
        intro d hd
        rcases List.mem_cons.mp hd with rfl | hd'
        · exact Or.inl (not_lt.1 hab)
        · exact hpre d hd'

/-- Specialisation of `bestFold_spec` to the loops' initial best `(-1, 0)`:
since every candidate's count is a natural number (hence `> -1`), a nonempty
candidate list always replaces the initial model, and the final best is the
first candidate achieving the maximal count, earlier candidates all scoring
strictly less and later ones at most as much. -/
lemma bestFold_first_max (l : List (ℕ × Plane)) :
    (l = [] → bestFold (-1, ⟨0, 0, 0, 0⟩) l = (-1, ⟨0, 0, 0, 0⟩)) ∧
    (l ≠ [] → ∃ pre c post, l = pre ++ c :: post ∧
      bestFold (-1, ⟨0, 0, 0, 0⟩) l = ((c.1 : ℤ), c.2) ∧
      (∀ d ∈ pre, d.1 < c.1) ∧ (∀ d ∈ post, d.1 ≤ c.1)) := by
  rcases bestFold_spec l (-1, ⟨0, 0, 0, 0⟩) with ⟨heq, hle⟩ |
    ⟨pre, c, post, hsplit, heq, hlt, hpre, hpost⟩
  · constructor
    · intro _; exact heq
    · intro hne
      rcases l with _ | ⟨a, tl⟩
      · exact absurd rfl hne
      · have h1 : ((a.1 : ℤ)) ≤ -1 := hle a (List.mem_cons_self a tl)
        have h2 := Int.natCast_nonneg a.1
        omega
  · constructor
    · intro hnil
      rw [hnil] at hsplit
      exact absurd hsplit.symm (by simp)
    · intro _
      refine ⟨pre, c, post, hsplit, heq, ?_, hpost⟩
      intro d hd
      rcases hpre d hd with h1 | h1
      · have := Int.natCast_nonneg d.1
        omega
      · exact h1

/-- The app loop is the strict-improvement fold over its candidate list, the
stream position advancing by 3 per iteration. -/
lemma appLoop_eq_bestFold (t : ℚ) (cloud : List Point3D) (s : ℕ → ℕ) :
    ∀ (m : ℕ) (st : RState),
      appLoop t cloud s m st =
        ⟨st.pos + 3 * m,
         (bestFold (st.bestCount, st.bestPlane) (appCands t cloud s m st.pos)).1,
         (bestFold (st.bestCount, st.bestPlane) (appCands t cloud s m st.pos)).2⟩ := by
  intro m
  induction m with
  | zero =>
    intro st
    simp [appLoop, appCands, bestFold]
  | succ m ih =>
    intro st
    have hstep : appLoop t cloud s (m + 1) st =
        appLoop t cloud s m (appIter t cloud s st) := rfl
    by_cases hcol : s st.pos % cloud.length = s (st.pos + 1) % cloud.length ∨
        s st.pos % cloud.length = s (st.pos + 2) % cloud.length ∨
        s (st.pos + 1) % cloud.length = s (st.pos + 2) % cloud.length
    · have e1 : appIter t cloud s st = ⟨st.pos + 3, st.bestCount, st.bestPlane⟩ := by
        simp only [appIter]
        rw [if_pos hcol]
      have e2 : appCands t cloud s (m + 1) st.pos =
          appCands t cloud s m (st.pos + 3) := by
        simp only [appCands]
        rw [if_pos hcol]
      rw [hstep, e1, ih ⟨st.pos + 3, st.bestCount, st.bestPlane⟩, e2]
      simp only [RState.mk.injEq]
      exact ⟨by ring, trivial, trivial⟩
    · rcases hcp : calculatePlane
          (cloud.getD (s st.pos % cloud.length) ⟨0, 0, 0⟩)
          (cloud.getD (s (st.pos + 1) % cloud.length) ⟨0, 0, 0⟩)
          (cloud.getD (s (st.pos + 2) % cloud.length) ⟨0, 0, 0⟩) with _ | pl
      · have e1 : appIter t cloud s st = ⟨st.pos + 3, st.bestCount, st.bestPlane⟩ := by
          simp only [appIter]
          rw [if_neg hcol, hcp]
        have e2 : appCands t cloud s (m + 1) st.pos =
            appCands t cloud s m (st.pos + 3) := by
          simp only [appCands]
          rw [if_neg hcol, hcp]
        rw [hstep, e1, ih ⟨st.pos + 3, st.bestCount, st.bestPlane⟩, e2]
        simp only [RState.mk.injEq]
        exact ⟨by ring, trivial, trivial⟩
      · by_cases hbc : st.bestCount < (countInliers t pl cloud : ℤ)
        · have e1 : appIter t cloud s st =
              ⟨st.pos + 3, (countInliers t pl cloud : ℤ), pl⟩ := by
            simp only [appIter]
            rw [if_neg hcol, hcp]
            exact if_pos hbc
          have e2 : appCands t cloud s (m + 1) st.pos =
              (countInliers t pl cloud, pl) :: appCands t cloud s m (st.pos + 3) := by
            simp only [appCands]
            rw [if_neg hcol, hcp]
          rw [hstep, e1, ih ⟨st.pos + 3, (countInliers t pl cloud : ℤ), pl⟩, e2]
          simp only [RState.mk.injEq]
          refine ⟨by ring, ?_, ?_⟩
          · simp only [bestFold]
            rw [if_pos hbc]
          · simp only [bestFold]
            rw [if_pos hbc]
        · have e1 : appIter t cloud s st = ⟨st.pos + 3, st.bestCount, st.bestPlane⟩ := by
            simp only [appIter]
            rw [if_neg hcol, hcp]
            exact if_neg hbc
          have e2 : appCands t cloud s (m + 1) st.pos =
              (countInliers t pl cloud, pl) :: appCands t cloud s m (st.pos + 3) := by
            simp only [appCands]
            rw [if_neg hcol, hcp]
          rw [hstep, e1, ih ⟨st.pos + 3, st.bestCount, st.bestPlane⟩, e2]
          simp only [RState.mk.injEq]
          refine ⟨by ring, ?_, ?_⟩
          · simp only [bestFold]
            rw [if_neg hbc]
          · simp only [bestFold]
            rw [if_neg hbc]

/-- The android loop is the strict-improvement fold over its candidate list
(when no retry loop diverges), the final stream position being the one
recorded by the candidate collector. -/
lemma androidLoop_eq_bestFold (t : ℚ) (cloud : List Point3D) (s : ℕ → ℕ)
    (fuel : ℕ) :
    ∀ (m : ℕ) (st : RState),
      androidLoop t cloud s fuel m st =
        (androidCands t cloud s fuel m st.pos).map fun lq =>
          (⟨lq.2, (bestFold (st.bestCount, st.bestPlane) lq.1).1,
            (bestFold (st.bestCount, st.bestPlane) lq.1).2⟩ : RState) := by
  intro m
  induction m with
  | zero =>
    intro st
    simp [androidLoop, androidCands, bestFold]
  | succ m ih =>
    intro st
    have hstep : androidLoop t cloud s fuel (m + 1) st =
        match androidIter t cloud s fuel st with
        | none => none
        | some st' => androidLoop t cloud s fuel m st' := rfl
    rcases hs : androidSample s cloud.length fuel st.pos with _ | ⟨i1, i2, i3, pos3⟩
    · have e1 : androidIter t cloud s fuel st = none := by
        simp only [androidIter]
        rw [hs]
      have e2 : androidCands t cloud s fuel (m + 1) st.pos = none := by
        simp only [androidCands]
        rw [hs]
      rw [hstep, e1, e2]
      rfl
    · rcases hc : androidCandidate (cloud.getD i1 ⟨0, 0, 0⟩)
          (cloud.getD i2 ⟨0, 0, 0⟩) (cloud.getD i3 ⟨0, 0, 0⟩) with _ | pl
      · have e1 : androidIter t cloud s fuel st =
            some ⟨pos3, st.bestCount, st.bestPlane⟩ := by
          simp only [androidIter, hs, hc]
        have e2 : androidCands t cloud s fuel (m + 1) st.pos =
            androidCands t cloud s fuel m pos3 := by
          simp only [androidCands, hs, hc]
        rw [hstep, e1, e2]
        exact ih ⟨pos3, st.bestCount, st.bestPlane⟩
      · by_cases hbc : st.bestCount < (countInliers t pl cloud : ℤ)
        · have e1 : androidIter t cloud s fuel st =
              some ⟨pos3, (countInliers t pl cloud : ℤ), pl⟩ := by
            simp only [androidIter, hs, hc]
            simp only [if_pos hbc]
          have e2 : androidCands t cloud s fuel (m + 1) st.pos =
              (androidCands t cloud s fuel m pos3).map fun lq =>
                ((countInliers t pl cloud, pl) :: lq.1, lq.2) := by
            simp only [androidCands, hs, hc]
          rw [hstep, e1, e2]
          show androidLoop t cloud s fuel m ⟨pos3, (countInliers t pl cloud : ℤ), pl⟩ = _
          rw [ih ⟨pos3, (countInliers t pl cloud : ℤ), pl⟩]
          dsimp only
          rcases hcd : androidCands t cloud s fuel m pos3 with _ | lq
          · rfl
          · simp only [Option.map_some', Option.some.injEq, RState.mk.injEq]
            refine ⟨trivial, ?_, ?_⟩ <;>
            · simp only [bestFold]
              rw [if_pos hbc]
        · have e1 : androidIter t cloud s fuel st =
              some ⟨pos3, st.bestCount, st.bestPlane⟩ := by
            simp only [androidIter, hs, hc]
            simp only [if_neg hbc]
          have e2 : androidCands t cloud s fuel (m + 1) st.pos =
              (androidCands t cloud s fuel m pos3).map fun lq =>
                ((countInliers t pl cloud, pl) :: lq.1, lq.2) := by
            simp only [androidCands, hs, hc]
          rw [hstep, e1, e2]
          show androidLoop t cloud s fuel m ⟨pos3, st.bestCount, st.bestPlane⟩ = _
          rw [ih ⟨pos3, st.bestCount, st.bestPlane⟩]
          dsimp only
          rcases hcd : androidCands t cloud s fuel m pos3 with _ | lq
          · rfl
          · simp only [Option.map_some', Option.some.injEq, RState.mk.injEq]
            refine ⟨trivial, ?_, ?_⟩ <;>
            · simp only [bestFold]
              rw [if_neg hbc]

/-- Claim C9: in both loops the retained best model is replaced iff the
iteration's inlier count strictly exceeds the best count so far; consequently,
for a fixed draw stream, the state after the loop holds the FIRST evaluated
candidate achieving the maximal inlier count (earlier candidates score
strictly less, later ones at most as much — ties keep the earlier model), and
the initial `(-1, zero-plane)` state survives only when no candidate was
evaluated. -/
theorem C9_best_update (t : ℚ) (cloud : List Point3D) (s : ℕ → ℕ)
    (mx fuel : ℕ) :
    ((appCands t cloud s mx 0 = [] →
      ((appLoop t cloud s mx initState).bestCount,
        (appLoop t cloud s mx initState).bestPlane) =
        (-1, (⟨0, 0, 0, 0⟩ : Plane))) ∧
     (appCands t cloud s mx 0 ≠ [] →
      ∃ pre c post, appCands t cloud s mx 0 = pre ++ c :: post ∧
        ((appLoop t cloud s mx initState).bestCount,
          (appLoop t cloud s mx initState).bestPlane) = ((c.1 : ℤ), c.2) ∧
        (∀ d ∈ pre, d.1 < c.1) ∧ (∀ d ∈ post, d.1 ≤ c.1))) ∧
    (∀ (st' : RState) (l : List (ℕ × Plane)) (q : ℕ),
      androidLoop t cloud s fuel mx initState = some st' →
      androidCands t cloud s fuel mx 0 = some (l, q) →
      ((l = [] → (st'.bestCount, st'.bestPlane) = (-1, (⟨0, 0, 0, 0⟩ : Plane))) ∧
       (l ≠ [] → ∃ pre c post, l = pre ++ c :: post ∧
         (st'.bestCount, st'.bestPlane) = ((c.1 : ℤ), c.2) ∧
         (∀ d ∈ pre, d.1 < c.1) ∧ (∀ d ∈ post, d.1 ≤ c.1)))) := by
  constructor
  · constructor
    · intro hnil
      have h0 := (bestFold_first_max (appCands t cloud s mx 0)).1 hnil
      rw [appLoop_eq_bestFold]
      show ((bestFold ((-1 : ℤ), (⟨0, 0, 0, 0⟩ : Plane)) (appCands t cloud s mx 0)).1,
          (bestFold ((-1 : ℤ), (⟨0, 0, 0, 0⟩ : Plane)) (appCands t cloud s mx 0)).2) =
          ((-1 : ℤ), (⟨0, 0, 0, 0⟩ : Plane))
      rw [h0]
    · intro hne
      obtain ⟨pre, c, post, hsplit, heq, hpre, hpost⟩ :=
        (bestFold_first_max (appCands t cloud s mx 0)).2 hne
      refine ⟨pre, c, post, hsplit, ?_, hpre, hpost⟩
      rw [appLoop_eq_bestFold]
      show ((bestFold ((-1 : ℤ), (⟨0, 0, 0, 0⟩ : Plane)) (appCands t cloud s mx 0)).1,
          (bestFold ((-1 : ℤ), (⟨0, 0, 0, 0⟩ : Plane)) (appCands t cloud s mx 0)).2) =
          ((c.1 : ℤ), c.2)
      rw [heq]
  · intro st' l q hloop hcands
    rw [androidLoop_eq_bestFold] at hloop
    rw [show androidCands t cloud s fuel mx initState.pos =
        androidCands t cloud s fuel mx 0 from rfl, hcands] at hloop
    simp only [Option.map_some', Option.some.injEq] at hloop
    subst hloop
    constructor
    · intro hnil
      have h0 := (bestFold_first_max l).1 hnil
      show ((bestFold ((-1 : ℤ), (⟨0, 0, 0, 0⟩ : Plane)) l).1,
          (bestFold ((-1 : ℤ), (⟨0, 0, 0, 0⟩ : Plane)) l).2) =
          ((-1 : ℤ), (⟨0, 0, 0, 0⟩ : Plane))
      rw [h0]
    · intro hne
      obtain ⟨pre, c, post, hsplit, heq, hpre, hpost⟩ := (bestFold_first_max l).2 hne
      refine ⟨pre, c, post, hsplit, ?_, hpre, hpost⟩
      show ((bestFold ((-1 : ℤ), (⟨0, 0, 0, 0⟩ : Plane)) l).1,
          (bestFold ((-1 : ℤ), (⟨0, 0, 0, 0⟩ : Plane)) l).2) =
          ((c.1 : ℤ), c.2)
      rw [heq]

/-- Claim C9 (witness): on the 3-point cloud of a fronto-parallel plane with
the identity draw stream and one iteration, both loops retain the single
evaluated candidate `(count 3, plane (0, 0, 1, -1))`, the first (and only)
candidate achieving the maximal count. -/
theorem C9_best_update_witness :
    (∃ pre c post,
      appCands (1/2) [⟨0, 0, 1⟩, ⟨1, 0, 1⟩, ⟨0, 1, 1⟩] (fun k => k) 1 0 =
        pre ++ c :: post ∧
      ((appLoop (1/2) [⟨0, 0, 1⟩, ⟨1, 0, 1⟩, ⟨0, 1, 1⟩] (fun k => k) 1
          initState).bestCount,
        (appLoop (1/2) [⟨0, 0, 1⟩, ⟨1, 0, 1⟩, ⟨0, 1, 1⟩] (fun k => k) 1
          initState).bestPlane) = ((c.1 : ℤ), c.2) ∧
      (∀ d ∈ pre, d.1 < c.1) ∧ (∀ d ∈ post, d.1 ≤ c.1)) ∧
    (∃ pre c post,
      [((3 : ℕ), (⟨0, 0, 1, -1⟩ : Plane))] = pre ++ c :: post ∧
      (((⟨3, 3, ⟨0, 0, 1, -1⟩⟩ : RState)).bestCount,
        ((⟨3, 3, ⟨0, 0, 1, -1⟩⟩ : RState)).bestPlane) = ((c.1 : ℤ), c.2) ∧
      (∀ d ∈ pre, d.1 < c.1) ∧ (∀ d ∈ post, d.1 ≤ c.1)) := by
  constructor
  · refine (C9_best_update (1/2) [⟨0, 0, 1⟩, ⟨1, 0, 1⟩, ⟨0, 1, 1⟩]
      (fun k => k) 1 2).1.2 ?_
    norm_num [appCands, calculatePlane, countInliers, isInlier, planeEval,
      normSq, List.countP_cons, List.countP_nil]
  · refine ((C9_best_update (1/2) [⟨0, 0, 1⟩, ⟨1, 0, 1⟩, ⟨0, 1, 1⟩]
      (fun k => k) 1 2).2 ⟨3, 3, ⟨0, 0, 1, -1⟩⟩ [(3, ⟨0, 0, 1, -1⟩)] 3 ?_ ?_).2
      (by simp)
    · norm_num [androidLoop, androidIter, androidSample, drawUntil,
        androidCandidate, countInliers, isInlier, planeEval, normSq, initState,
        List.countP_cons, List.countP_nil]
    · norm_num [androidCands, androidSample, drawUntil, androidCandidate,
        countInliers, isInlier, planeEval, normSq,
        List.countP_cons, List.countP_nil]

/-! ## Claim C10 -/

/-- Setting slot 0 leaves every other slot unchanged. -/
lemma get?_set_zero_ne (l : List RansacPlaneResult) (x : RansacPlaneResult)
    (i : ℕ) (hi : i ≠ 0) : (l.set 0 x).get? i = l.get? i := by
  cases l with
  | nil => rfl
  | cons b bs =>
    cases i with
    | zero => exact absurd rfl hi
    | succ j => rfl

/-- Claim C10: `detect_walls_ransac` writes to the caller's buffer only when it
returns 1, and then writes exactly slot 0 (every other slot, and the buffer
length, are unchanged — and return 1 requires `max_planes ≥ 1`); whenever it
returns 0 — insufficient points, best count below `min_inliers`, or
`max_planes < 1` — the buffer is returned entirely unmodified. -/
theorem C10_frame (depthMap : List ℚ) (width height : ℤ) (fx fy cx cy t : ℚ)
    (mi mx : ℤ) (buf : List RansacPlaneResult) (mp : ℤ) (s : ℕ → ℕ) (fuel : ℕ)
    (r : ℤ) (buf' : List RansacPlaneResult)
    (hcall : detect_walls_ransac depthMap width height fx fy cx cy t mi mx buf
      mp s fuel = some (r, buf')) :
    ((r = 0 ∧ buf' = buf) ∨
      (r = 1 ∧ 1 ≤ mp ∧ ∃ x, buf' = buf.set 0 x)) ∧
    buf'.length = buf.length ∧
    (∀ i, i ≠ 0 → buf'.get? i = buf.get? i) := by
  simp only [detect_walls_ransac] at hcall
  split_ifs at hcall with hearly
  · injection hcall with hpair
    simp only [Prod.mk.injEq] at hpair
    rw [← hpair.2]
    exact ⟨Or.inl ⟨hpair.1.symm, rfl⟩, rfl, fun i _ => rfl⟩
  · split at hcall
    · exact Option.noConfusion hcall
    · rename_i st hloop
      split_ifs at hcall with hemit
      · injection hcall with hpair
        simp only [Prod.mk.injEq] at hpair
        rw [← hpair.2]
        refine ⟨Or.inr ⟨hpair.1.symm, hemit.2, ⟨_, rfl⟩⟩, ?_, ?_⟩
        · exact List.length_set buf 0 _
        · intro i hi
          exact get?_set_zero_ne buf _ i hi
      · injection hcall with hpair
        simp only [Prod.mk.injEq] at hpair
        rw [← hpair.2]
        exact ⟨Or.inl ⟨hpair.1.symm, rfl⟩, rfl, fun i _ => rfl⟩

/-- Claim C10 (witness): the successful 2×2-grid call returns 1 having written
exactly slot 0 of the singleton buffer. -/
theorem C10_frame_witness :
    ((((1 : ℤ) = 0 ∧
        [(⟨0, 0, -1, 1, 3⟩ : RansacPlaneResult)] = [⟨9, 9, 9, 9, 9⟩]) ∨
      ((1 : ℤ) = 1 ∧ (1 : ℤ) ≤ 1 ∧
        ∃ x, [(⟨0, 0, -1, 1, 3⟩ : RansacPlaneResult)] =
          [(⟨9, 9, 9, 9, 9⟩ : RansacPlaneResult)].set 0 x))) ∧
    [(⟨0, 0, -1, 1, 3⟩ : RansacPlaneResult)].length =
      [(⟨9, 9, 9, 9, 9⟩ : RansacPlaneResult)].length ∧
    (∀ i, i ≠ 0 →
      [(⟨0, 0, -1, 1, 3⟩ : RansacPlaneResult)].get? i =
        [(⟨9, 9, 9, 9, 9⟩ : RansacPlaneResult)].get? i) :=
  C10_frame [1, 1, 1, 1/2] 2 2 1 1 0 0 (1/2) 3 1 [⟨9, 9, 9, 9, 9⟩] 1
    (fun k => k) 5 1 [⟨0, 0, -1, 1, 3⟩]
    (by norm_num [detect_walls_ransac, buildCloudAndroid, androidCellPoint,
      androidLoop, androidIter, androidSample, drawUntil, androidCandidate,
      countInliers, isInlier, planeEval, normSq, initState,
      List.flatMap, List.filterMap_cons, List.filterMap_nil, List.countP_cons,
      List.countP_nil, show List.range 2 = [0, 1] from rfl,
      show Int.toNat 2 = 2 from rfl, show (1 : ℤ).toNat = 1 from rfl,
      show castSizeT 3 = 3 from rfl])
